import Mathlib

/-!
Verification development for the `Creator` scaffolding engine
(`Creator` / `CreatorAPI` in the `@mpflow/cli` package).

The engine is embedded shallowly:

* `M α` is the computation type of the engine: a function from the external
  environment (`Env`, the oracles for npm, HTTP, tmp directories, the template
  renderer, ...) and the current virtual file set (`Files`, the mutable
  `files` object of `create()`) to a trace of observable events (`Ev`) paired
  with either an error (a rejected promise) or a result and updated file set.
* Handler invocation by the tapable hooks is made observable through
  `Ev.hStart` / `Ev.hEnd` events emitted by the hook runners; external calls
  (`npm info`, `axios.get`, `tar.x`, `tmp.dir`, `installNodeModules`,
  `generator.generate`, ...) each emit one event and consult `Env.extOk`
  to decide whether the underlying promise resolves or rejects.
* `waterfallRun` embeds `AsyncSeriesWaterfallHook.promise` (each tap receives
  the previous tap's output) and `seriesRun` embeds `AsyncSeriesHook.promise`
  (each tap receives the same argument, resolved values are discarded); both
  await each tap in registration order.
* `Creator.getTemplatePath`, `Creator.create`, `Creator.installPlugin` and the
  default `'creator'` taps registered in the `Creator` constructor are
  translated statement by statement from the source.
-/

namespace MpflowCreator

/-- The seven pipeline stages declared by `Creator.hooks`. -/
inductive Stage where
  | prepare
  | resolveTemplate
  | render
  | beforeEmit
  | emit
  | init
  | afterInit
  deriving DecidableEq, Repr

/-- Position of a stage in the fixed pipeline order driven by `create()`. -/
def Stage.idx : Stage → Nat
  | .prepare => 0
  | .resolveTemplate => 1
  | .render => 2
  | .beforeEmit => 3
  | .emit => 4
  | .afterInit => 6
  | .init => 5

/-- Composition kind of a tapable hook: `AsyncSeriesWaterfallHook` threads each
tap's output into the next tap, `AsyncSeriesHook` runs all taps on the same
argument and discards their resolved values. -/
inductive HookKind where
  | waterfall
  | series
  deriving DecidableEq, Repr

/-- The virtual file set: the plain-object mapping from project-relative path
to rendered content (`Record<string, string>` in the source), as an
association list with unique keys maintained by `setKey`. -/
abbrev Files := List (String × String)

/-- Observable events of one engine run.  `hStart`/`hEnd` mark the begin and
settle of one tapped handler inside a hook; the remaining constructors record
the external calls made by the engine (`tmpRemove` is the removal of a temp
directory, which the vocabulary provides so that its absence is expressible). -/
inductive Ev where
  | hStart (stage : Stage) (tap : String)
  | hEnd (stage : Stage) (tap : String)
  | log (msg : String)
  | tmpCreate (dir : String)
  | tmpRemove (dir : String)
  | npmLookup (pkg : String)
  | httpGet (url : String)
  | tarExtract (dir : String)
  | renderCall (templatePath : String) (pat : String) (projectName : String) (appId : String)
  | syncFiles (ctx : String) (files : Files)
  | installModules (ctx : String) (mods : Option (List String))
  | processFile (file : String) (field : String) (items : List String)
  | generateRun (ctx : String) (pluginIds : List String) (applyAll : Bool)
  deriving DecidableEq, Repr

/-- A trace of observable events. -/
abbrev Trace := List Ev

/-- The external world: current working directory, the fresh temp-directory
name `tmp.dir` would produce, the stdout of `npm info <pkg> dist.tarball`,
the outcome of `renderFiles` on a template directory, the built-in plugin
list of the local service, which external calls succeed, and which
directories exist on disk (the engine itself never consults `dirPresent`;
it is part of the model so that claims about directory existence can be
stated). -/
structure Env where
  cwd : String
  tmpName : String
  npmTarball : String → String
  rendered : String → String → String → Files
  localBuiltIns : List String
  extOk : Ev → Bool
  dirPresent : String → Bool

/-- Engine computations: environment and current file set in, trace plus
either a rejection (error string) or a value and updated file set out. -/
def M (α : Type) : Type := Env → Files → Trace × Except String (α × Files)

/-- Promise resolution with a value: no events, state unchanged. -/
def M.pure {α : Type} (a : α) : M α := fun _ fs => ([], .ok (a, fs))

/-- Sequential composition (`await` then continue); a rejection short-circuits
and the continuation contributes no events. -/
def M.bind {α β : Type} (x : M α) (f : α → M β) : M β := fun env fs =>
  match x env fs with
  | (t, .error e) => (t, .error e)
  | (t, .ok (a, fs')) =>
    match f a env fs' with
    | (t', r) => (t ++ t', r)

instance : Monad M where
  pure := M.pure
  bind := M.bind

/-- Emit one observable event. -/
def M.emit (e : Ev) : M Unit := fun _ fs => ([e], .ok ((), fs))

/-- `console.log`. -/
def M.logMsg (msg : String) : M Unit := fun _ fs => ([Ev.log msg], .ok ((), fs))

/-- An awaited external call: it emits its event and resolves or rejects
according to the environment. -/
def M.extCall (e : Ev) (err : String) : M Unit := fun env fs =>
  ([e], if env.extOk e then .ok ((), fs) else .error err)

/-- Read the environment. -/
def M.readEnv : M Env := fun env fs => ([], .ok (env, fs))

/-- Read the current virtual file set. -/
def M.getFiles : M Files := fun _ fs => ([], .ok (fs, fs))

/-- Replace the current virtual file set (`const files = {}` introduces a
fresh empty object). -/
def M.setFiles (v : Files) : M Unit := fun _ _ => ([], .ok ((), v))

/-- Mutate the current virtual file set in place. -/
def M.modifyFiles (g : Files → Files) : M Unit := fun _ fs => ([], .ok ((), g fs))

/-- A rejected promise. -/
def M.fail {α : Type} (err : String) : M α := fun _ _ => ([], .error err)

/-- `p` is a prefix of `s` (the semantics of `String.startsWith` and of the
anchored regexp test in the source), computed on the character lists. -/
def strStarts (p s : String) : Bool := p.data.isPrefixOf s.data

/-- `s.substr(n)`: drop the first `n` characters. -/
def strDrop (s : String) (n : Nat) : String := String.mk (s.data.drop n)

/-- `s.trim()`: strip leading and trailing whitespace. -/
def strTrim (s : String) : String :=
  String.mk (((s.data.dropWhile Char.isWhitespace).reverse.dropWhile Char.isWhitespace).reverse)

/-- `path.join(a, b)` (modelled without segment normalisation). -/
def pathJoin (a b : String) : String := a ++ "/" ++ b

/-- `path.resolve(p)` against the working directory (modelled without segment
normalisation: an absolute path is kept, a relative one is anchored at
`cwd`). -/
def pathResolve (cwd p : String) : String :=
  if strStarts "/" p then p else pathJoin cwd p

/-- The classification regexp of `getTemplatePath`: the anchored test
for an absolute http(s) URL. -/
def isHttpUrl (s : String) : Bool := strStarts "http://" s || strStarts "https://" s

/-- Insert or overwrite one key of the virtual file set, keeping keys unique. -/
def setKey : Files → String → String → Files
  | [], k, v => [(k, v)]
  | (k', v') :: rest, k, v =>
    if k' = k then (k, v) :: rest else (k', v') :: setKey rest k v

/-- `Object.assign(files, rendered)`: merge `add` into `fs`, overwriting
existing keys. -/
def objAssign (fs add : Files) : Files :=
  add.foldl (fun acc kv => setKey acc kv.1 kv.2) fs

/-- The metadata object threaded through the `prepare` waterfall. -/
structure Infos where
  projectName : String
  appId : String
  templateName : String
  deriving DecidableEq, Repr

/-- The argument object of the `render` hook. -/
structure RenderInfos where
  projectName : String
  appId : String
  templatePath : String
  deriving DecidableEq, Repr

/-- The taps one resolved plugin registers through its `CreatorAPI` handle
when `initPlugins()` invokes its `creator` function; the API exposes
`tapPrepare`, `tapResolveTemplate`, `tapRender`, `tapBeforeEmit`, `tapEmit`
and `tapInit` (there is no `tapAfterInit`), each tapping with the plugin's
id as tap name.  Tap lists are in the plugin's own registration order. -/
structure PluginSpec where
  id : String
  prepareTaps : List (Infos → M Infos)
  resolveTaps : List (String → M String)
  renderTaps : List (RenderInfos → M Unit)
  beforeEmitTaps : List (Unit → M Unit)
  emitTaps : List (String → M Unit)
  initTaps : List (String → M Unit)

/-- The `Creator` service: target directory (`context`), the optional
construction metadata, and the resolved plugin list (built-in plugins first,
then inline plugins, as produced by `resolvePluginInfos`). -/
structure Creator where
  context : String
  templateName? : Option String
  projectName? : Option String
  appId? : Option String
  plugins : List PluginSpec

/-- The composition kind of each of the seven hooks declared by
`Creator.hooks`: `prepare` and `resolveTemplate` are
`AsyncSeriesWaterfallHook`s, the other five are `AsyncSeriesHook`s. -/
def hookKinds : List (Stage × HookKind) :=
  [(.prepare, .waterfall), (.resolveTemplate, .waterfall), (.render, .series),
   (.beforeEmit, .series), (.emit, .series), (.init, .series), (.afterInit, .series)]

/-- `AsyncSeriesWaterfallHook.promise`: taps run strictly in registration
order, each awaited; each tap receives the previous tap's output and the
final tap's output resolves the hook. -/
def waterfallRun {α : Type} (s : Stage) : List (String × (α → M α)) → α → M α
  | [], x => pure x
  | (n, f) :: rest, x => do
    M.emit (.hStart s n)
    let y ← f x
    M.emit (.hEnd s n)
    waterfallRun s rest y

/-- `AsyncSeriesHook.promise`: taps run strictly in registration order, each
awaited; every tap receives the same argument and resolved values are
discarded. -/
def seriesRun {α β : Type} (s : Stage) : List (String × (α → M β)) → α → M Unit
  | [], _ => pure ()
  | (n, f) :: rest, x => do
    M.emit (.hStart s n)
    let _ ← f x
    M.emit (.hEnd s n)
    seriesRun s rest x

/-- `Creator.getTemplatePath`: a `file://` reference is used locally
(strip the marker, resolve, append the `template` subdirectory); anything
else is downloaded into a fresh temp directory, with a prior
`npm info <name> dist.tarball` lookup when the reference is not an absolute
http(s) URL, and extracted; the result is then `<tmp>/package/template`. -/
def getTemplatePath (templateName : String) : M String := do
  M.logMsg ("use " ++ templateName)
  if strStarts "file://" templateName then do
    let e ← M.readEnv
    let localTemplatePath := pathJoin (pathResolve e.cwd (strDrop templateName 7)) "template"
    M.logMsg ("local " ++ localTemplatePath)
    pure localTemplatePath
  else do
    let e ← M.readEnv
    M.extCall (.tmpCreate e.tmpName) "TempAllocationError"
    let tmpPath := e.tmpName
    let downloadUrl ← do
      if !isHttpUrl templateName then do
        M.logMsg ("npm " ++ templateName)
        M.extCall (.npmLookup templateName) "PackageLookupError"
        pure (strTrim (e.npmTarball templateName))
      else
        pure templateName
    M.logMsg ("download " ++ downloadUrl)
    M.extCall (.httpGet downloadUrl) "DownloadError"
    M.extCall (.tarExtract tmpPath) "ExtractionError"
    pure (pathJoin (pathJoin tmpPath "package") "template")

/-- The default `resolveTemplate` tap registered as `'creator'` in the
constructor: delegate to `getTemplatePath`. -/
def defaultResolveTap : String → M String := fun templateName =>
  getTemplatePath templateName

/-- The default `render` tap registered as `'creator'` in the constructor:
`renderFiles` over the whole template tree, then `Object.assign` the result
into the shared `files` object. -/
def defaultRenderTap : RenderInfos → M Unit := fun info => do
  let e ← M.readEnv
  M.extCall (.renderCall info.templatePath "**/*" info.projectName info.appId) "TemplateRenderError"
  M.modifyFiles (fun fs => objAssign fs (e.rendered info.templatePath info.projectName info.appId))

/-- The default `emit` tap registered as `'creator'` in the constructor:
`syncFiles` of the shared `files` object into the hook's context argument. -/
def defaultEmitTap : String → M Unit := fun ctx => do
  let fs ← M.getFiles
  M.extCall (.syncFiles ctx fs) "WriteError"

/-- The default `init` tap registered as `'creator'` in the constructor:
`npm install` in the hook's context argument, install `@mpflow/service` in
the creator's own context, then run the built-in plugins' generators
through a nested `Generator.generate(false)` pass. -/
def defaultInitTap (homeContext : String) : String → M Unit := fun ctx => do
  M.extCall (.installModules ctx none) "DependencyInstallError"
  M.extCall (.installModules homeContext (some ["@mpflow/service"])) "DependencyInstallError"
  let e ← M.readEnv
  M.extCall (.generateRun homeContext e.localBuiltIns false) "GenerateError"

/-- The `prepare` taps registered by the resolved plugins, in plugin order
(the constructor registers no default `prepare` tap). -/
def prepareTaps (ps : List PluginSpec) : List (String × (Infos → M Infos)) :=
  ps.flatMap fun p => p.prepareTaps.map fun f => (p.id, f)

/-- The user `resolveTemplate` taps, in plugin order. -/
def userResolveTaps (ps : List PluginSpec) : List (String × (String → M String)) :=
  ps.flatMap fun p => p.resolveTaps.map fun f => (p.id, f)

/-- The user `render` taps, in plugin order. -/
def userRenderTaps (ps : List PluginSpec) : List (String × (RenderInfos → M Unit)) :=
  ps.flatMap fun p => p.renderTaps.map fun f => (p.id, f)

/-- The `beforeEmit` taps, in plugin order (no default tap). -/
def beforeEmitTaps (ps : List PluginSpec) : List (String × (Unit → M Unit)) :=
  ps.flatMap fun p => p.beforeEmitTaps.map fun f => (p.id, f)

/-- The user `emit` taps, in plugin order. -/
def userEmitTaps (ps : List PluginSpec) : List (String × (String → M Unit)) :=
  ps.flatMap fun p => p.emitTaps.map fun f => (p.id, f)

/-- The user `init` taps, in plugin order. -/
def userInitTaps (ps : List PluginSpec) : List (String × (String → M Unit)) :=
  ps.flatMap fun p => p.initTaps.map fun f => (p.id, f)

/-- Full `resolveTemplate` tap list: the `'creator'` default was registered in
the constructor, before `initPlugins()` lets any plugin tap. -/
def resolveTemplateTaps (c : Creator) : List (String × (String → M String)) :=
  ("creator", defaultResolveTap) :: userResolveTaps c.plugins

/-- Full `render` tap list: default first, then plugin taps. -/
def renderTaps (c : Creator) : List (String × (RenderInfos → M Unit)) :=
  ("creator", defaultRenderTap) :: userRenderTaps c.plugins

/-- Full `emit` tap list: default first, then plugin taps. -/
def emitTaps (c : Creator) : List (String × (String → M Unit)) :=
  ("creator", defaultEmitTap) :: userEmitTaps c.plugins

/-- Full `init` tap list: default first, then plugin taps. -/
def initTaps (c : Creator) : List (String × (String → M Unit)) :=
  ("creator", defaultInitTap c.context) :: userInitTaps c.plugins

/-- Full `afterInit` tap list: the constructor registers none and
`CreatorAPI` offers no `tapAfterInit`, so the hook has no taps. -/
def afterInitTaps (_c : Creator) : List (String × (String → M Unit)) := []

/-- The initial argument `create()` passes to the `prepare` hook: each missing
construction option is defaulted to the empty string
(`this.projectName || ''` and friends). -/
def initialInfos (c : Creator) : Infos :=
  { projectName := c.projectName?.getD ""
    appId := c.appId?.getD ""
    templateName := c.templateName?.getD "" }

/-- `Creator.create()`: drive the seven hooks in order, each awaited;
`prepare` and `resolveTemplate` thread their waterfall outputs into the
later stages, `const files = {}` introduces the fresh shared file set just
before `render`, and `emit`, `init`, `afterInit` receive the creator's
context. -/
def create (c : Creator) : M Unit := do
  let infos ← waterfallRun .prepare (prepareTaps c.plugins) (initialInfos c)
  let templatePath ← waterfallRun .resolveTemplate (resolveTemplateTaps c) infos.templateName
  M.setFiles []
  seriesRun .render (renderTaps c) ⟨infos.projectName, infos.appId, templatePath⟩
  seriesRun .beforeEmit (beforeEmitTaps c.plugins) ()
  seriesRun .emit (emitTaps c) c.context
  seriesRun .init (initTaps c) c.context
  seriesRun .afterInit (afterInitTaps c) c.context

/-- `Creator.installPlugin(pluginNames)`: return immediately on an empty
list; otherwise install the packages into the project, register the
`add-to-exports` transform that appends the plugin ids to the `plugins`
field of `mpflow.config.js`, and run `generator.generate(true)`. -/
def installPlugin (c : Creator) (pluginNames : List String) : M Unit := do
  if pluginNames.isEmpty then
    pure ()
  else do
    M.extCall (.installModules c.context (some pluginNames)) "DependencyInstallError"
    M.emit (.processFile "mpflow.config.js" "plugins" pluginNames)
    M.extCall (.generateRun c.context pluginNames true) "GenerateError"


deriving instance DecidableEq for Except

/-- Prepend a trace to a run outcome. -/
def withTrace {α : Type} (t : Trace) (p : Trace × Except String (α × Files)) :
    Trace × Except String (α × Files) :=
  (t ++ p.1, p.2)

/-- The stage a hook-invocation event belongs to (`none` for every other
event). -/
def hookEvStage : Ev → Option Stage
  | .hStart s _ => some s
  | .hEnd s _ => some s
  | _ => none

/-- The pipeline positions of the hook-invocation events of a trace, in trace
order. -/
def idxsOf (t : Trace) : List Nat :=
  t.filterMap (fun e => (hookEvStage e).map Stage.idx)

/-- A trace without hook-invocation events. -/
def NoHookEvs (t : Trace) : Prop := ∀ e ∈ t, hookEvStage e = none

/-- Every hook-invocation event of the trace belongs to stage `s`. -/
def StageHooksOnly (s : Stage) (t : Trace) : Prop :=
  ∀ e ∈ t, hookEvStage e = none ∨ hookEvStage e = some s

/-- A computation that emits no hook-invocation events itself (every handler
is such a computation: only the hook runners mark handler invocations). -/
def CleanM {α : Type} (m : M α) : Prop := ∀ env fs, NoHookEvs (m env fs).1

/-- All taps registered by a plugin are hook-event-free computations. -/
def PluginSpec.CleanTaps (p : PluginSpec) : Prop :=
  (∀ f ∈ p.prepareTaps, ∀ x, CleanM (f x)) ∧
  (∀ f ∈ p.resolveTaps, ∀ x, CleanM (f x)) ∧
  (∀ f ∈ p.renderTaps, ∀ x, CleanM (f x)) ∧
  (∀ f ∈ p.beforeEmitTaps, ∀ x, CleanM (f x)) ∧
  (∀ f ∈ p.emitTaps, ∀ x, CleanM (f x)) ∧
  (∀ f ∈ p.initTaps, ∀ x, CleanM (f x))

/-- All plugins of the creator register hook-event-free taps. -/
def Creator.CleanPlugins (c : Creator) : Prop := ∀ p ∈ c.plugins, p.CleanTaps

/-- Is this event the removal of a temp directory? -/
def Ev.isTmpRemove : Ev → Bool
  | .tmpRemove _ => true
  | _ => false

/-- `a` occurs before (strictly to the left of) every occurrence of `b` in the
trace `t`: whichever way `t` is split around an occurrence of `b`, the left
part contains `a`. -/
def precedes (a b : Ev) (t : Trace) : Prop :=
  ∀ pre post, t = pre ++ b :: post → a ∈ pre

/-- The `prepare` stage of `create()`. -/
def runPrep (c : Creator) : M Infos :=
  waterfallRun .prepare (prepareTaps c.plugins) (initialInfos c)

/-- The `resolveTemplate` stage of `create()`, fed the `prepare` output. -/
def runResolve (c : Creator) (infos : Infos) : M String :=
  waterfallRun .resolveTemplate (resolveTemplateTaps c) infos.templateName

/-- The `render` stage of `create()` together with the `const files = {}`
allocation that immediately precedes it. -/
def runRender (c : Creator) (infos : Infos) (templatePath : String) : M Unit := do
  M.setFiles []
  seriesRun .render (renderTaps c) ⟨infos.projectName, infos.appId, templatePath⟩

/-- The `beforeEmit` stage of `create()`. -/
def runBeforeEmit (c : Creator) : M Unit :=
  seriesRun .beforeEmit (beforeEmitTaps c.plugins) ()

/-- The `emit` stage of `create()`. -/
def runEmit (c : Creator) : M Unit :=
  seriesRun .emit (emitTaps c) c.context

/-- The `init` stage of `create()`. -/
def runInit (c : Creator) : M Unit :=
  seriesRun .init (initTaps c) c.context

/-- The `afterInit` stage of `create()`. -/
def runAfterInit (c : Creator) : M Unit :=
  seriesRun .afterInit (afterInitTaps c) c.context

/-- Everything `create()` does after the `prepare` stage settles, as a
function of the `prepare` waterfall output. -/
def afterPrep (c : Creator) (infos : Infos) : M Unit :=
  M.bind (runResolve c infos) fun templatePath =>
  M.bind (runRender c infos templatePath) fun _ =>
  M.bind (runBeforeEmit c) fun _ =>
  M.bind (runEmit c) fun _ =>
  M.bind (runInit c) fun _ =>
  runAfterInit c

/-- The hook-invocation index sequence of a fully successful `create()` run:
two events (start and settle) per tap, per stage, in pipeline order. -/
def expectedIdxs (c : Creator) : List Nat :=
  List.replicate (2 * (prepareTaps c.plugins).length) 0 ++
  List.replicate (2 * (resolveTemplateTaps c).length) 1 ++
  List.replicate (2 * (renderTaps c).length) 2 ++
  List.replicate (2 * (beforeEmitTaps c.plugins).length) 3 ++
  List.replicate (2 * (emitTaps c).length) 4 ++
  List.replicate (2 * (initTaps c).length) 5 ++
  List.replicate (2 * (afterInitTaps c).length) 6


/-- Events that represent network or subprocess activity. -/
def Ev.isNetOrProc : Ev → Bool
  | .npmLookup _ => true
  | .httpGet _ => true
  | .tarExtract _ => true
  | .installModules _ _ => true
  | .generateRun _ _ _ => true
  | _ => false

/-- A trace with no temp-directory removals. -/
def NoTmpRemove (t : Trace) : Prop := ∀ e ∈ t, e.isTmpRemove = false

/-- A computation that never removes a temp directory. -/
def NoTmpRemoveM {α : Type} (m : M α) : Prop := ∀ env fs, NoTmpRemove (m env fs).1

/-- Concrete environment for witnesses: every external call succeeds. -/
def envW : Env where
  cwd := "/cwd"
  tmpName := "/tmp/t1"
  npmTarball := fun _ => "https://registry/x.tgz"
  rendered := fun _ _ _ => [("app.js", "x")]
  localBuiltIns := ["b1"]
  extOk := fun _ => true
  dirPresent := fun _ => true

/-- Concrete environment in which no directory exists on disk. -/
def envCX : Env where
  cwd := "/cwd"
  tmpName := "/tmp/t1"
  npmTarball := fun _ => "https://registry/x.tgz"
  rendered := fun _ _ _ => [("app.js", "x")]
  localBuiltIns := ["b1"]
  extOk := fun _ => true
  dirPresent := fun _ => false

/-- Concrete plugin-free creator with a registry-package template reference. -/
def cW : Creator where
  context := "/proj"
  templateName? := some "pkg"
  projectName? := none
  appId? := none
  plugins := []

/-- Concrete plugin-free creator with no construction metadata. -/
def cW0 : Creator where
  context := "/proj"
  templateName? := none
  projectName? := none
  appId? := none
  plugins := []

/-- Is this event a package-metadata lookup? -/
def Ev.isNpmLookup : Ev → Bool
  | .npmLookup _ => true
  | _ => false

/-- The `prepare`, `resolveTemplate` and `render` stages of `create()`,
chained. -/
def createUpToRender (c : Creator) : M Unit :=
  M.bind (runPrep c) fun infos =>
  M.bind (runResolve c infos) fun templatePath =>
  runRender c infos templatePath

/-- The `beforeEmit`, `emit`, `init` and `afterInit` stages of `create()`,
chained. -/
def createTail (c : Creator) : M Unit :=
  M.bind (runBeforeEmit c) fun _ =>
  M.bind (runEmit c) fun _ =>
  M.bind (runInit c) fun _ =>
  runAfterInit c

/-- A plugin that adds one entry during `render` and rewrites one entry
during `beforeEmit`. -/
def pMut : PluginSpec where
  id := "p"
  prepareTaps := []
  resolveTaps := []
  renderTaps := [fun _ => M.modifyFiles (fun fs => setKey fs "extra.txt" "hi")]
  beforeEmitTaps := [fun _ => M.modifyFiles (fun fs => setKey fs "app.js" "rewritten")]
  emitTaps := []
  initTaps := []

/-- Concrete creator over a local template with the mutating plugin. -/
def cW7 : Creator where
  context := "/proj"
  templateName? := some "file:///tpl"
  projectName? := none
  appId? := none
  plugins := [pMut]

/-- A plugin whose only tap is a failing `beforeEmit` handler. -/
def pFail : PluginSpec where
  id := "p"
  prepareTaps := []
  resolveTaps := []
  renderTaps := []
  beforeEmitTaps := [fun _ => M.fail "boom"]
  emitTaps := []
  initTaps := []

/-- Concrete creator over a local template with the failing plugin. -/
def cW3 : Creator where
  context := "/proj"
  templateName? := some "file:///tpl"
  projectName? := none
  appId? := none
  plugins := [pFail]

/-- A plugin with a single user `emit` tap. -/
def pEmitTap : PluginSpec where
  id := "q"
  prepareTaps := []
  resolveTaps := []
  renderTaps := []
  beforeEmitTaps := []
  emitTaps := [fun _ => M.pure ()]
  initTaps := []

/-- Concrete creator over a local template with the user `emit` tap. -/
def cW8 : Creator where
  context := "/proj"
  templateName? := some "file:///tpl"
  projectName? := none
  appId? := none
  plugins := [pEmitTap]

/-- Do-notation bind of `M` is `M.bind`. -/
theorem bind_def {α β : Type} (x : M α) (f : α → M β) : x >>= f = M.bind x f := rfl

/-- Do-notation pure of `M` is `M.pure`. -/
theorem pure_def {α : Type} (a : α) : (Pure.pure a : M α) = M.pure a := rfl

/-- Evaluating a bind whose head rejects: the rejection propagates unchanged
and the continuation contributes nothing. -/
theorem M.bind_error {α β : Type} {x : M α} {f : α → M β} {env : Env} {fs : Files}
    {t : Trace} {e : String} (h : x env fs = (t, .error e)) :
    M.bind x f env fs = (t, .error e) := by
  unfold M.bind
  rw [h]

/-- Evaluating a bind whose head resolves: the continuation runs on the head's
state and the traces concatenate. -/
theorem M.bind_ok {α β : Type} {x : M α} {f : α → M β} {env : Env} {fs : Files}
    {t : Trace} {a : α} {fs' : Files} (h : x env fs = (t, .ok (a, fs'))) :
    M.bind x f env fs = withTrace t (f a env fs') := by
  unfold M.bind withTrace
  rw [h]

/-- Associativity of sequential composition. -/
theorem M.bind_assoc {α β γ : Type} (x : M α) (f : α → M β) (g : β → M γ) :
    M.bind (M.bind x f) g = M.bind x (fun a => M.bind (f a) g) := by
  funext env fs
  unfold M.bind
  rcases hx : x env fs with ⟨t, r⟩
  cases r with
  | error e => rfl
  | ok p =>
    rcases p with ⟨a, fs'⟩
    rcases hf : f a env fs' with ⟨t', r'⟩
    cases r' with
    | error e => simp [hf]
    | ok q =>
      rcases q with ⟨b, fs''⟩
      rcases hg : g b env fs'' with ⟨t'', r''⟩
      simp [hf, hg]

/-- An empty waterfall hook resolves with its initial value. -/
theorem waterfallRun_nil {α : Type} (s : Stage) (x : α) (env : Env) (fs : Files) :
    waterfallRun s [] x env fs = ([], .ok (x, fs)) := rfl

/-- An empty series hook resolves at once. -/
theorem seriesRun_nil {α β : Type} (s : Stage) (x : α) (env : Env) (fs : Files) :
    seriesRun (β := β) s [] x env fs = ([], .ok ((), fs)) := rfl

/-- A waterfall hook whose first tap rejects: the hook rejects with the tap's
error, after the tap's start event and trace; no later tap runs. -/
theorem waterfallRun_cons_error {α : Type} {s : Stage} {n : String} {f : α → M α}
    {rest : List (String × (α → M α))} {x : α} {env : Env} {fs : Files}
    {t : Trace} {e : String} (h : f x env fs = (t, .error e)) :
    waterfallRun s ((n, f) :: rest) x env fs = (Ev.hStart s n :: t, .error e) := by
  simp only [waterfallRun, bind_def]
  rw [M.bind_ok (show M.emit (.hStart s n) env fs = ([.hStart s n], .ok ((), fs)) from rfl)]
  rw [M.bind_error h]
  simp [withTrace]

/-- A waterfall hook whose first tap resolves with `y`: the remaining taps run
on `y`, after the tap's start event, trace and settle event. -/
theorem waterfallRun_cons_ok {α : Type} {s : Stage} {n : String} {f : α → M α}
    {rest : List (String × (α → M α))} {x : α} {env : Env} {fs : Files}
    {t : Trace} {y : α} {fs' : Files} (h : f x env fs = (t, .ok (y, fs'))) :
    waterfallRun s ((n, f) :: rest) x env fs =
      withTrace (Ev.hStart s n :: t ++ [Ev.hEnd s n]) (waterfallRun s rest y env fs') := by
  simp only [waterfallRun, bind_def]
  rw [M.bind_ok (show M.emit (.hStart s n) env fs = ([.hStart s n], .ok ((), fs)) from rfl)]
  rw [M.bind_ok h]
  rw [M.bind_ok (show M.emit (.hEnd s n) env fs' = ([.hEnd s n], .ok ((), fs')) from rfl)]
  simp [withTrace]

/-- A series hook whose first tap rejects: the hook rejects with the tap's
error, after the tap's start event and trace; no later tap runs. -/
theorem seriesRun_cons_error {α β : Type} {s : Stage} {n : String} {f : α → M β}
    {rest : List (String × (α → M β))} {x : α} {env : Env} {fs : Files}
    {t : Trace} {e : String} (h : f x env fs = (t, .error e)) :
    seriesRun s ((n, f) :: rest) x env fs = (Ev.hStart s n :: t, .error e) := by
  simp only [seriesRun, bind_def]
  rw [M.bind_ok (show M.emit (.hStart s n) env fs = ([.hStart s n], .ok ((), fs)) from rfl)]
  rw [M.bind_error h]
  simp [withTrace]

/-- A series hook whose first tap resolves: its resolved value is discarded
and the remaining taps run on the same argument `x`. -/
theorem seriesRun_cons_ok {α β : Type} {s : Stage} {n : String} {f : α → M β}
    {rest : List (String × (α → M β))} {x : α} {env : Env} {fs : Files}
    {t : Trace} {y : β} {fs' : Files} (h : f x env fs = (t, .ok (y, fs'))) :
    seriesRun s ((n, f) :: rest) x env fs =
      withTrace (Ev.hStart s n :: t ++ [Ev.hEnd s n]) (seriesRun s rest x env fs') := by
  simp only [seriesRun, bind_def]
  rw [M.bind_ok (show M.emit (.hStart s n) env fs = ([.hStart s n], .ok ((), fs)) from rfl)]
  rw [M.bind_ok h]
  rw [M.bind_ok (show M.emit (.hEnd s n) env fs' = ([.hEnd s n], .ok ((), fs')) from rfl)]
  simp [withTrace]

/-- `create()` is the `prepare` stage chained into `afterPrep`. -/
theorem create_eq (c : Creator) : create c = M.bind (runPrep c) (afterPrep c) := by
  unfold create afterPrep runPrep runResolve runRender runBeforeEmit runEmit runInit runAfterInit
  simp only [bind_def]
  congr 1


/-- The trace of `withTrace`. -/
theorem withTrace_fst {α : Type} (t : Trace) (p : Trace × Except String (α × Files)) :
    (withTrace t p).1 = t ++ p.1 := rfl

/-- The outcome of `withTrace`. -/
theorem withTrace_snd {α : Type} (t : Trace) (p : Trace × Except String (α × Files)) :
    (withTrace t p).2 = p.2 := rfl

/-- The empty trace has no hook events. -/
theorem noHookEvs_nil : NoHookEvs [] := by
  intro e he
  cases he

/-- Hook-event freedom is preserved by concatenation. -/
theorem noHookEvs_append {t₁ t₂ : Trace} (h1 : NoHookEvs t₁) (h2 : NoHookEvs t₂) :
    NoHookEvs (t₁ ++ t₂) := by
  intro e he
  rcases List.mem_append.mp he with h | h
  · exact h1 e h
  · exact h2 e h

/-- Binding two hook-event-free computations is hook-event-free. -/
theorem cleanM_bind {α β : Type} {x : M α} {f : α → M β}
    (hx : CleanM x) (hf : ∀ a, CleanM (f a)) : CleanM (M.bind x f) := by
  intro env fs
  unfold M.bind
  rcases hxr : x env fs with ⟨t, r⟩
  have hxt : NoHookEvs t := by
    have := hx env fs
    rw [hxr] at this
    exact this
  cases r with
  | error e => exact hxt
  | ok p =>
    rcases p with ⟨a, fs'⟩
    dsimp only
    rcases hfr : f a env fs' with ⟨t', r'⟩
    have hft : NoHookEvs t' := by
      have := hf a env fs'
      rw [hfr] at this
      exact this
    exact noHookEvs_append hxt hft

/-- `pure` is hook-event-free. -/
theorem cleanM_pure {α : Type} (a : α) : CleanM (M.pure a) := by
  intro env fs
  exact noHookEvs_nil

/-- `console.log` is hook-event-free. -/
theorem cleanM_logMsg (msg : String) : CleanM (M.logMsg msg) := by
  intro env fs e he
  have h : e = .log msg := List.mem_singleton.mp he
  subst h
  rfl

/-- An external call whose event is not a hook event is hook-event-free. -/
theorem cleanM_extCall {e : Ev} (he : hookEvStage e = none) (err : String) :
    CleanM (M.extCall e err) := by
  intro env fs ev hev
  have h : ev = e := List.mem_singleton.mp hev
  subst h
  exact he

/-- Reading the environment is hook-event-free. -/
theorem cleanM_readEnv : CleanM M.readEnv := by
  intro env fs
  exact noHookEvs_nil

/-- Reading the file set is hook-event-free. -/
theorem cleanM_getFiles : CleanM M.getFiles := by
  intro env fs
  exact noHookEvs_nil

/-- Replacing the file set is hook-event-free. -/
theorem cleanM_setFiles (v : Files) : CleanM (M.setFiles v) := by
  intro env fs
  exact noHookEvs_nil

/-- Mutating the file set is hook-event-free. -/
theorem cleanM_modifyFiles (g : Files → Files) : CleanM (M.modifyFiles g) := by
  intro env fs
  exact noHookEvs_nil

/-- A rejection is hook-event-free. -/
theorem cleanM_fail {α : Type} (err : String) : CleanM (M.fail (α := α) err) := by
  intro env fs
  exact noHookEvs_nil

/-- The template resolver emits only logs and external calls, never hook
events. -/
theorem getTemplatePath_clean (tn : String) : CleanM (getTemplatePath tn) := by
  unfold getTemplatePath
  simp only [bind_def, pure_def]
  refine cleanM_bind (cleanM_logMsg _) ?_
  intro _
  split
  · refine cleanM_bind cleanM_readEnv ?_
    intro e
    refine cleanM_bind (cleanM_logMsg _) ?_
    intro _
    exact cleanM_pure _
  · refine cleanM_bind cleanM_readEnv ?_
    intro e
    refine cleanM_bind (cleanM_extCall ?_ _) ?_
    · rfl
    intro _
    split
    · refine cleanM_bind (cleanM_logMsg _) ?_
      intro _
      refine cleanM_bind (cleanM_extCall ?_ _) ?_
      · rfl
      intro _
      refine cleanM_bind (cleanM_pure _) ?_
      intro url
      refine cleanM_bind (cleanM_logMsg _) ?_
      intro _
      refine cleanM_bind (cleanM_extCall ?_ _) ?_
      · rfl
      intro _
      refine cleanM_bind (cleanM_extCall ?_ _) ?_
      · rfl
      intro _
      exact cleanM_pure _
    · refine cleanM_bind (cleanM_pure _) ?_
      intro url
      refine cleanM_bind (cleanM_logMsg _) ?_
      intro _
      refine cleanM_bind (cleanM_extCall ?_ _) ?_
      · rfl
      intro _
      refine cleanM_bind (cleanM_extCall ?_ _) ?_
      · rfl
      intro _
      exact cleanM_pure _

/-- The default `render` tap is hook-event-free. -/
theorem defaultRenderTap_clean (info : RenderInfos) : CleanM (defaultRenderTap info) := by
  unfold defaultRenderTap
  simp only [bind_def]
  refine cleanM_bind cleanM_readEnv ?_
  intro e
  refine cleanM_bind (cleanM_extCall ?_ _) ?_
  · rfl
  intro _
  exact cleanM_modifyFiles _

/-- The default `emit` tap is hook-event-free. -/
theorem defaultEmitTap_clean (ctx : String) : CleanM (defaultEmitTap ctx) := by
  unfold defaultEmitTap
  simp only [bind_def]
  refine cleanM_bind cleanM_getFiles ?_
  intro fs
  refine cleanM_extCall ?_ _
  rfl

/-- The default `init` tap is hook-event-free. -/
theorem defaultInitTap_clean (home ctx : String) : CleanM (defaultInitTap home ctx) := by
  unfold defaultInitTap
  simp only [bind_def]
  refine cleanM_bind (cleanM_extCall ?_ _) ?_
  · rfl
  intro _
  refine cleanM_bind (cleanM_extCall ?_ _) ?_
  · rfl
  intro _
  refine cleanM_bind cleanM_readEnv ?_
  intro e
  refine cleanM_extCall ?_ _
  rfl


/-- Plugin `prepare` taps of clean plugins are clean. -/
theorem prepareTaps_clean {ps : List PluginSpec} (h : ∀ p ∈ ps, p.CleanTaps) :
    ∀ nf ∈ prepareTaps ps, ∀ x, CleanM (nf.2 x) := by
  intro nf hnf x
  unfold prepareTaps at hnf
  rcases List.mem_flatMap.mp hnf with ⟨p, hp, hmem⟩
  rcases List.mem_map.mp hmem with ⟨f, hf, rfl⟩
  exact (h p hp).1 f hf x

/-- Plugin `resolveTemplate` taps of clean plugins are clean. -/
theorem userResolveTaps_clean {ps : List PluginSpec} (h : ∀ p ∈ ps, p.CleanTaps) :
    ∀ nf ∈ userResolveTaps ps, ∀ x, CleanM (nf.2 x) := by
  intro nf hnf x
  unfold userResolveTaps at hnf
  rcases List.mem_flatMap.mp hnf with ⟨p, hp, hmem⟩
  rcases List.mem_map.mp hmem with ⟨f, hf, rfl⟩
  exact (h p hp).2.1 f hf x

/-- Plugin `render` taps of clean plugins are clean. -/
theorem userRenderTaps_clean {ps : List PluginSpec} (h : ∀ p ∈ ps, p.CleanTaps) :
    ∀ nf ∈ userRenderTaps ps, ∀ x, CleanM (nf.2 x) := by
  intro nf hnf x
  unfold userRenderTaps at hnf
  rcases List.mem_flatMap.mp hnf with ⟨p, hp, hmem⟩
  rcases List.mem_map.mp hmem with ⟨f, hf, rfl⟩
  exact (h p hp).2.2.1 f hf x

/-- Plugin `beforeEmit` taps of clean plugins are clean. -/
theorem beforeEmitTaps_clean {ps : List PluginSpec} (h : ∀ p ∈ ps, p.CleanTaps) :
    ∀ nf ∈ beforeEmitTaps ps, ∀ x, CleanM (nf.2 x) := by
  intro nf hnf x
  unfold beforeEmitTaps at hnf
  rcases List.mem_flatMap.mp hnf with ⟨p, hp, hmem⟩
  rcases List.mem_map.mp hmem with ⟨f, hf, rfl⟩
  exact (h p hp).2.2.2.1 f hf x

/-- Plugin `emit` taps of clean plugins are clean. -/
theorem userEmitTaps_clean {ps : List PluginSpec} (h : ∀ p ∈ ps, p.CleanTaps) :
    ∀ nf ∈ userEmitTaps ps, ∀ x, CleanM (nf.2 x) := by
  intro nf hnf x
  unfold userEmitTaps at hnf
  rcases List.mem_flatMap.mp hnf with ⟨p, hp, hmem⟩
  rcases List.mem_map.mp hmem with ⟨f, hf, rfl⟩
  exact (h p hp).2.2.2.2.1 f hf x

/-- Plugin `init` taps of clean plugins are clean. -/
theorem userInitTaps_clean {ps : List PluginSpec} (h : ∀ p ∈ ps, p.CleanTaps) :
    ∀ nf ∈ userInitTaps ps, ∀ x, CleanM (nf.2 x) := by
  intro nf hnf x
  unfold userInitTaps at hnf
  rcases List.mem_flatMap.mp hnf with ⟨p, hp, hmem⟩
  rcases List.mem_map.mp hmem with ⟨f, hf, rfl⟩
  exact (h p hp).2.2.2.2.2 f hf x

/-- The full `resolveTemplate` tap list of a clean creator is clean. -/
theorem resolveTemplateTaps_clean {c : Creator} (h : c.CleanPlugins) :
    ∀ nf ∈ resolveTemplateTaps c, ∀ x, CleanM (nf.2 x) := by
  intro nf hnf x
  unfold resolveTemplateTaps at hnf
  rcases List.mem_cons.mp hnf with rfl | hnf
  · exact getTemplatePath_clean x
  · exact userResolveTaps_clean h _ hnf x

/-- The full `render` tap list of a clean creator is clean. -/
theorem renderTaps_clean {c : Creator} (h : c.CleanPlugins) :
    ∀ nf ∈ renderTaps c, ∀ x, CleanM (nf.2 x) := by
  intro nf hnf x
  unfold renderTaps at hnf
  rcases List.mem_cons.mp hnf with rfl | hnf
  · exact defaultRenderTap_clean x
  · exact userRenderTaps_clean h _ hnf x

/-- The full `emit` tap list of a clean creator is clean. -/
theorem emitTaps_clean {c : Creator} (h : c.CleanPlugins) :
    ∀ nf ∈ emitTaps c, ∀ x, CleanM (nf.2 x) := by
  intro nf hnf x
  unfold emitTaps at hnf
  rcases List.mem_cons.mp hnf with rfl | hnf
  · exact defaultEmitTap_clean x
  · exact userEmitTaps_clean h _ hnf x

/-- The full `init` tap list of a clean creator is clean. -/
theorem initTaps_clean {c : Creator} (h : c.CleanPlugins) :
    ∀ nf ∈ initTaps c, ∀ x, CleanM (nf.2 x) := by
  intro nf hnf x
  unfold initTaps at hnf
  rcases List.mem_cons.mp hnf with rfl | hnf
  · exact defaultInitTap_clean c.context x
  · exact userInitTaps_clean h _ hnf x

/-- The empty trace has hook events of stage `s` only (vacuously). -/
theorem stageHooksOnly_nil {s : Stage} : StageHooksOnly s [] := by
  intro e he
  cases he

/-- A hook-event-free trace has hook events of stage `s` only (vacuously). -/
theorem stageHooksOnly_of_noHook {s : Stage} {t : Trace} (h : NoHookEvs t) :
    StageHooksOnly s t := by
  intro e he
  exact Or.inl (h e he)

/-- `StageHooksOnly` is preserved by concatenation. -/
theorem stageHooksOnly_append {s : Stage} {t₁ t₂ : Trace}
    (h1 : StageHooksOnly s t₁) (h2 : StageHooksOnly s t₂) :
    StageHooksOnly s (t₁ ++ t₂) := by
  intro e he
  rcases List.mem_append.mp he with h | h
  · exact h1 e h
  · exact h2 e h

/-- `StageHooksOnly` is preserved by consing a stage-`s` hook event. -/
theorem stageHooksOnly_cons {s : Stage} {e : Ev} {t : Trace}
    (he : hookEvStage e = none ∨ hookEvStage e = some s) (h : StageHooksOnly s t) :
    StageHooksOnly s (e :: t) := by
  intro ev hev
  rcases List.mem_cons.mp hev with rfl | hev
  · exact he
  · exact h ev hev

/-- All hook events in a series-hook run belong to the hook's own stage,
provided the taps are clean. -/
theorem seriesRun_stageHooks {α β : Type} (s : Stage) (taps : List (String × (α → M β)))
    (hclean : ∀ nf ∈ taps, ∀ x, CleanM (nf.2 x)) (x : α) (env : Env) (fs : Files) :
    StageHooksOnly s (seriesRun s taps x env fs).1 := by
  induction taps generalizing fs with
  | nil =>
    rw [seriesRun_nil]
    exact stageHooksOnly_nil
  | cons nf rest ih =>
    rcases nf with ⟨n, f⟩
    have hf : CleanM (f x) := hclean (n, f) (List.mem_cons_self _ _) x
    have hrest : ∀ nf ∈ rest, ∀ x, CleanM (nf.2 x) := by
      intro nf hnf
      exact hclean nf (List.mem_cons_of_mem _ hnf)
    rcases hfx : f x env fs with ⟨t, r⟩
    have hft : NoHookEvs t := by
      have := hf env fs
      rw [hfx] at this
      exact this
    cases r with
    | error e =>
      rw [seriesRun_cons_error hfx]
      exact stageHooksOnly_cons (Or.inr rfl) (stageHooksOnly_of_noHook hft)
    | ok p =>
      rcases p with ⟨y, fs'⟩
      rw [seriesRun_cons_ok hfx, withTrace_fst]
      refine stageHooksOnly_append ?_ (ih hrest fs')
      refine stageHooksOnly_cons (Or.inr rfl) ?_
      exact stageHooksOnly_append (stageHooksOnly_of_noHook hft)
        (stageHooksOnly_cons (Or.inr rfl) stageHooksOnly_nil)

/-- All hook events in a waterfall-hook run belong to the hook's own stage,
provided the taps are clean. -/
theorem waterfallRun_stageHooks {α : Type} (s : Stage) (taps : List (String × (α → M α)))
    (hclean : ∀ nf ∈ taps, ∀ x, CleanM (nf.2 x)) (x : α) (env : Env) (fs : Files) :
    StageHooksOnly s (waterfallRun s taps x env fs).1 := by
  induction taps generalizing x fs with
  | nil =>
    rw [waterfallRun_nil]
    exact stageHooksOnly_nil
  | cons nf rest ih =>
    rcases nf with ⟨n, f⟩
    have hf : CleanM (f x) := hclean (n, f) (List.mem_cons_self _ _) x
    have hrest : ∀ nf ∈ rest, ∀ x, CleanM (nf.2 x) := by
      intro nf hnf
      exact hclean nf (List.mem_cons_of_mem _ hnf)
    rcases hfx : f x env fs with ⟨t, r⟩
    have hft : NoHookEvs t := by
      have := hf env fs
      rw [hfx] at this
      exact this
    cases r with
    | error e =>
      rw [waterfallRun_cons_error hfx]
      exact stageHooksOnly_cons (Or.inr rfl) (stageHooksOnly_of_noHook hft)
    | ok p =>
      rcases p with ⟨y, fs'⟩
      rw [waterfallRun_cons_ok hfx, withTrace_fst]
      refine stageHooksOnly_append ?_ (ih hrest y fs')
      refine stageHooksOnly_cons (Or.inr rfl) ?_
      exact stageHooksOnly_append (stageHooksOnly_of_noHook hft)
        (stageHooksOnly_cons (Or.inr rfl) stageHooksOnly_nil)


/-- `idxsOf` distributes over concatenation. -/
theorem idxsOf_append (t₁ t₂ : Trace) : idxsOf (t₁ ++ t₂) = idxsOf t₁ ++ idxsOf t₂ := by
  unfold idxsOf
  exact List.filterMap_append _ _ _

/-- A hook-event-free trace contributes no hook indices. -/
theorem idxsOf_noHook {t : Trace} (h : NoHookEvs t) : idxsOf t = [] := by
  unfold idxsOf
  rw [List.filterMap_eq_nil_iff]
  intro e he
  rw [h e he]
  rfl

/-- The hook index of a start event. -/
theorem idxsOf_hStart (s : Stage) (n : String) (t : Trace) :
    idxsOf (Ev.hStart s n :: t) = s.idx :: idxsOf t := rfl

/-- The hook index of a settle event. -/
theorem idxsOf_hEnd (s : Stage) (n : String) (t : Trace) :
    idxsOf (Ev.hEnd s n :: t) = s.idx :: idxsOf t := rfl

/-- The empty trace has no hook indices. -/
theorem idxsOf_nil : idxsOf [] = [] := rfl

/-- The hook indices of a series-hook run with clean taps: some number of
copies of the hook's own stage index, and exactly two per tap when the hook
resolves. -/
theorem seriesRun_idxs {α β : Type} (s : Stage) (taps : List (String × (α → M β)))
    (hclean : ∀ nf ∈ taps, ∀ x, CleanM (nf.2 x)) (x : α) (env : Env) (fs : Files) :
    (∃ k, idxsOf (seriesRun s taps x env fs).1 = List.replicate k s.idx) ∧
    (∀ r, (seriesRun s taps x env fs).2 = .ok r →
      idxsOf (seriesRun s taps x env fs).1 = List.replicate (2 * taps.length) s.idx) := by
  induction taps generalizing fs with
  | nil =>
    rw [seriesRun_nil]
    exact ⟨⟨0, rfl⟩, fun r hr => rfl⟩
  | cons nf rest ih =>
    rcases nf with ⟨n, f⟩
    have hf : CleanM (f x) := hclean (n, f) (List.mem_cons_self _ _) x
    have hrest : ∀ nf ∈ rest, ∀ x, CleanM (nf.2 x) := by
      intro nf hnf
      exact hclean nf (List.mem_cons_of_mem _ hnf)
    rcases hfx : f x env fs with ⟨t, r⟩
    have hft : NoHookEvs t := by
      have := hf env fs
      rw [hfx] at this
      exact this
    cases r with
    | error e =>
      rw [seriesRun_cons_error hfx]
      constructor
      · refine ⟨1, ?_⟩
        rw [idxsOf_hStart, idxsOf_noHook hft]
        rfl
      · intro r hr
        cases hr
    | ok p =>
      rcases p with ⟨y, fs'⟩
      rcases ih hrest fs' with ⟨⟨k, hk⟩, hok⟩
      rw [seriesRun_cons_ok hfx]
      have htr : idxsOf (withTrace (Ev.hStart s n :: t ++ [Ev.hEnd s n])
          (seriesRun s rest x env fs')).1 =
          s.idx :: s.idx :: idxsOf (seriesRun s rest x env fs').1 := by
        rw [withTrace_fst]
        simp [idxsOf_append, idxsOf_hStart, idxsOf_hEnd, idxsOf_nil, idxsOf_noHook hft]
      constructor
      · refine ⟨k + 2, ?_⟩
        rw [htr, hk]
        rfl
      · intro r hr
        rw [withTrace_snd] at hr
        rw [htr, hok r hr]
        have : 2 * (rest.length + 1) = 2 * rest.length + 2 := by omega
        rw [List.length_cons, this]
        rfl

/-- The hook indices of a waterfall-hook run with clean taps: some number of
copies of the hook's own stage index, and exactly two per tap when the hook
resolves. -/
theorem waterfallRun_idxs {α : Type} (s : Stage) (taps : List (String × (α → M α)))
    (hclean : ∀ nf ∈ taps, ∀ x, CleanM (nf.2 x)) (x : α) (env : Env) (fs : Files) :
    (∃ k, idxsOf (waterfallRun s taps x env fs).1 = List.replicate k s.idx) ∧
    (∀ r, (waterfallRun s taps x env fs).2 = .ok r →
      idxsOf (waterfallRun s taps x env fs).1 = List.replicate (2 * taps.length) s.idx) := by
  induction taps generalizing x fs with
  | nil =>
    rw [waterfallRun_nil]
    exact ⟨⟨0, rfl⟩, fun r hr => rfl⟩
  | cons nf rest ih =>
    rcases nf with ⟨n, f⟩
    have hf : CleanM (f x) := hclean (n, f) (List.mem_cons_self _ _) x
    have hrest : ∀ nf ∈ rest, ∀ x, CleanM (nf.2 x) := by
      intro nf hnf
      exact hclean nf (List.mem_cons_of_mem _ hnf)
    rcases hfx : f x env fs with ⟨t, r⟩
    have hft : NoHookEvs t := by
      have := hf env fs
      rw [hfx] at this
      exact this
    cases r with
    | error e =>
      rw [waterfallRun_cons_error hfx]
      constructor
      · refine ⟨1, ?_⟩
        rw [idxsOf_hStart, idxsOf_noHook hft]
        rfl
      · intro r hr
        cases hr
    | ok p =>
      rcases p with ⟨y, fs'⟩
      rcases ih hrest y fs' with ⟨⟨k, hk⟩, hok⟩
      rw [waterfallRun_cons_ok hfx]
      have htr : idxsOf (withTrace (Ev.hStart s n :: t ++ [Ev.hEnd s n])
          (waterfallRun s rest y env fs')).1 =
          s.idx :: s.idx :: idxsOf (waterfallRun s rest y env fs').1 := by
        rw [withTrace_fst]
        simp [idxsOf_append, idxsOf_hStart, idxsOf_hEnd, idxsOf_nil, idxsOf_noHook hft]
      constructor
      · refine ⟨k + 2, ?_⟩
        rw [htr, hk]
        rfl
      · intro r hr
        rw [withTrace_snd] at hr
        rw [htr, hok r hr]
        have : 2 * (rest.length + 1) = 2 * rest.length + 2 := by omega
        rw [List.length_cons, this]
        rfl

/-- If `b` never occurs in `t`, every occurrence of `b` is (vacuously)
preceded by `a`. -/
theorem precedes_of_not_mem {a b : Ev} {t : Trace} (h : b ∉ t) : precedes a b t := by
  intro pre post ht
  exact absurd (ht ▸ List.mem_append_right pre (List.mem_cons_self b post)) h

/-- Splitting a concatenation at an occurrence of `b` that cannot lie in the
left part: the left part is a prefix of the prefix. -/
theorem append_split_of_not_mem {b : Ev} {t₁ t₂ pre post : Trace}
    (hb : b ∉ t₁) (h : t₁ ++ t₂ = pre ++ b :: post) :
    ∃ m, pre = t₁ ++ m ∧ t₂ = m ++ b :: post := by
  induction t₁ generalizing pre with
  | nil =>
    exact ⟨pre, by simp, by simpa using h⟩
  | cons c t₁ ih =>
    cases pre with
    | nil =>
      rw [List.nil_append, List.cons_append] at h
      injection h with h1 h2
      subst h1
      exact absurd (List.mem_cons_self c t₁) hb
    | cons d pre' =>
      rw [List.cons_append, List.cons_append] at h
      injection h with h1 h2
      have hb' : b ∉ t₁ := fun hmem => hb (List.mem_cons_of_mem _ hmem)
      rcases ih hb' h2 with ⟨m, rfl, hm⟩
      refine ⟨m, ?_, hm⟩
      rw [List.cons_append, h1]

/-- If `a` occurs in the left part of a concatenation and `b` never does,
then `a` precedes every occurrence of `b`. -/
theorem precedes_append_left {a b : Ev} {t₁ t₂ : Trace}
    (ha : a ∈ t₁) (hb : b ∉ t₁) : precedes a b (t₁ ++ t₂) := by
  intro pre post ht
  rcases append_split_of_not_mem hb ht with ⟨m, rfl, -⟩
  exact List.mem_append_left m ha


/-- Evaluating `console.log`. -/
theorem logMsg_run (msg : String) (env : Env) (fs : Files) :
    M.logMsg msg env fs = ([Ev.log msg], .ok ((), fs)) := rfl

/-- Evaluating an event emission. -/
theorem emit_run (e : Ev) (env : Env) (fs : Files) :
    M.emit e env fs = ([e], .ok ((), fs)) := rfl

/-- Evaluating an environment read. -/
theorem readEnv_run (env : Env) (fs : Files) :
    M.readEnv env fs = ([], .ok (env, fs)) := rfl

/-- Evaluating `pure`. -/
theorem pure_run {α : Type} (a : α) (env : Env) (fs : Files) :
    M.pure a env fs = ([], .ok (a, fs)) := rfl

/-- Evaluating a file-set read. -/
theorem getFiles_run (env : Env) (fs : Files) :
    M.getFiles env fs = ([], .ok (fs, fs)) := rfl

/-- Evaluating a file-set replacement. -/
theorem setFiles_run (v : Files) (env : Env) (fs : Files) :
    M.setFiles v env fs = ([], .ok ((), v)) := rfl

/-- Evaluating a file-set mutation. -/
theorem modifyFiles_run (g : Files → Files) (env : Env) (fs : Files) :
    M.modifyFiles g env fs = ([], .ok ((), g fs)) := rfl

/-- Evaluating an external call that succeeds. -/
theorem extCall_ok {e : Ev} {env : Env} (err : String) (fs : Files)
    (h : env.extOk e = true) :
    M.extCall e err env fs = ([e], .ok ((), fs)) := by
  unfold M.extCall
  rw [h]
  simp

/-- Evaluating an external call that fails. -/
theorem extCall_error {e : Ev} {env : Env} (err : String) (fs : Files)
    (h : env.extOk e = false) :
    M.extCall e err env fs = ([e], .error err) := by
  unfold M.extCall
  rw [h]
  simp


/-- C9: `installPlugin` applied to an empty list performs no dependency
installation and no configuration mutation and returns immediately (empty
trace, state unchanged); applied to a non-empty list it first installs the
named packages as project dependencies, then registers the transform
appending exactly those plugin identifiers to the `plugins` field of
the project configuration file, and then runs the generation pass with the
overwrite flag set to `true`, in that order. -/
theorem c9_installPlugin_empty_noop_nonempty_sequence
    (c : Creator) (env : Env) (fs : Files) (ns : List String) (hne : ns ≠ [])
    (hInstall : env.extOk (.installModules c.context (some ns)) = true)
    (hGen : env.extOk (.generateRun c.context ns true) = true) :
    installPlugin c [] env fs = ([], .ok ((), fs)) ∧
    installPlugin c ns env fs =
      ([.installModules c.context (some ns),
        .processFile "mpflow.config.js" "plugins" ns,
        .generateRun c.context ns true], .ok ((), fs)) := by
  constructor
  · rfl
  · rcases ns with _ | ⟨a, tl⟩
    · exact absurd rfl hne
    · unfold installPlugin
      simp only [bind_def, List.isEmpty_cons, Bool.false_eq_true, if_false]
      rw [M.bind_ok (extCall_ok _ _ hInstall)]
      rw [M.bind_ok (emit_run _ _ _)]
      rw [extCall_ok _ _ hGen]
      simp [withTrace]

/-- Witness for C9 at a concrete creator, environment and plugin list. -/
theorem c9_witness :
    installPlugin cW [] envW [] = ([], .ok ((), [])) ∧
    installPlugin cW ["p1", "p2"] envW [] =
      ([.installModules "/proj" (some ["p1", "p2"]),
        .processFile "mpflow.config.js" "plugins" ["p1", "p2"],
        .generateRun "/proj" ["p1", "p2"] true], .ok ((), [])) :=
  c9_installPlugin_empty_noop_nonempty_sequence cW envW [] ["p1", "p2"]
    (by decide) rfl rfl


/-- A string starting with a slash still starts with a slash after
appending. -/
theorem strStarts_slash_append (a b : String) (h : strStarts "/" a = true) :
    strStarts "/" (a ++ b) = true := by
  unfold strStarts at h ⊢
  rw [String.data_append]
  cases hd : a.data with
  | nil =>
    rw [hd] at h
    exact absurd h (by decide)
  | cons c l =>
    rw [hd] at h
    rw [List.cons_append]
    simp only [List.isPrefixOf] at h ⊢
    simpa using h

/-- C4 (amended): a `file://` template reference is resolved purely locally:
the marker is stripped, the remainder resolved to an absolute path, the
fixed `template` subdirectory name appended; the resolver performs no
network or subprocess call and returns the path unconditionally, with no
check that the directory exists. -/
theorem c4_local_template_no_network (name : String) (env : Env) (fs : Files)
    (hfile : strStarts "file://" name = true)
    (habs : strStarts "/" env.cwd = true) :
    getTemplatePath name env fs =
      ([.log ("use " ++ name),
        .log ("local " ++ pathJoin (pathResolve env.cwd (strDrop name 7)) "template")],
       .ok (pathJoin (pathResolve env.cwd (strDrop name 7)) "template", fs)) ∧
    strStarts "/" (pathJoin (pathResolve env.cwd (strDrop name 7)) "template") = true ∧
    (∀ e ∈ (getTemplatePath name env fs).1, e.isNetOrProc = false) := by
  have habs' : strStarts "/" (pathResolve env.cwd (strDrop name 7)) = true := by
    unfold pathResolve
    split
    · assumption
    · unfold pathJoin
      exact strStarts_slash_append _ _ (strStarts_slash_append _ _ habs)
  have htr : getTemplatePath name env fs =
      ([.log ("use " ++ name),
        .log ("local " ++ pathJoin (pathResolve env.cwd (strDrop name 7)) "template")],
       .ok (pathJoin (pathResolve env.cwd (strDrop name 7)) "template", fs)) := by
    unfold getTemplatePath
    simp only [bind_def]
    rw [M.bind_ok (logMsg_run _ _ _)]
    rw [if_pos hfile]
    rw [M.bind_ok (readEnv_run _ _)]
    rw [M.bind_ok (logMsg_run _ _ _)]
    simp [withTrace, pure_def, pure_run]
  refine ⟨htr, ?_, ?_⟩
  · unfold pathJoin
    exact strStarts_slash_append _ _ (strStarts_slash_append _ _ habs')
  · rw [htr]
    intro e he
    rcases List.mem_cons.mp he with rfl | he
    · rfl
    · rcases List.mem_singleton.mp he with rfl
      rfl

/-- Witness for C4 (amended) at a concrete local reference. -/
theorem c4_witness :
    getTemplatePath "file://./mytemplate" envW [] =
      ([.log "use file://./mytemplate", .log "local /cwd/./mytemplate/template"],
       .ok ("/cwd/./mytemplate/template", [])) ∧
    strStarts "/" "/cwd/./mytemplate/template" = true := by
  have h := c4_local_template_no_network "file://./mytemplate" envW []
    (by decide) (by decide)
  exact ⟨h.1, by decide⟩

/-- Counterexample to C4 as stated: resolving a `file://` reference whose
target directory is absent still resolves successfully; `getTemplatePath`
never raises a `TemplateNotFoundError`. -/
theorem c4_counterexample_no_existence_check :
    (getTemplatePath "file://./mytemplate" envCX []).2 =
      .ok ("/cwd/./mytemplate/template", []) ∧
    envCX.dirPresent "/cwd/./mytemplate/template" = false := ⟨rfl, rfl⟩


/-- The empty trace removes no temp directory. -/
theorem noTmpRemove_nil : NoTmpRemove [] := by
  intro e he
  cases he

/-- Temp-removal freedom is preserved by concatenation. -/
theorem noTmpRemove_append {t₁ t₂ : Trace} (h1 : NoTmpRemove t₁) (h2 : NoTmpRemove t₂) :
    NoTmpRemove (t₁ ++ t₂) := by
  intro e he
  rcases List.mem_append.mp he with h | h
  · exact h1 e h
  · exact h2 e h

/-- Binding two temp-removal-free computations is temp-removal-free. -/
theorem noTmpRemoveM_bind {α β : Type} {x : M α} {f : α → M β}
    (hx : NoTmpRemoveM x) (hf : ∀ a, NoTmpRemoveM (f a)) : NoTmpRemoveM (M.bind x f) := by
  intro env fs
  unfold M.bind
  rcases hxr : x env fs with ⟨t, r⟩
  have hxt : NoTmpRemove t := by
    have := hx env fs
    rw [hxr] at this
    exact this
  cases r with
  | error e => exact hxt
  | ok p =>
    rcases p with ⟨a, fs'⟩
    dsimp only
    rcases hfr : f a env fs' with ⟨t', r'⟩
    have hft : NoTmpRemove t' := by
      have := hf a env fs'
      rw [hfr] at this
      exact this
    exact noTmpRemove_append hxt hft

/-- A single-event trace whose event is not a temp removal. -/
theorem noTmpRemove_single {e : Ev} (h : e.isTmpRemove = false) : NoTmpRemove [e] := by
  intro ev hev
  rw [List.mem_singleton.mp hev]
  exact h

/-- `console.log` removes no temp directory. -/
theorem noTmpRemoveM_logMsg (msg : String) : NoTmpRemoveM (M.logMsg msg) := by
  intro env fs
  exact noTmpRemove_single rfl

/-- An external call whose event is not a temp removal is temp-removal
free. -/
theorem noTmpRemoveM_extCall {e : Ev} (h : e.isTmpRemove = false) (err : String) :
    NoTmpRemoveM (M.extCall e err) := by
  intro env fs
  exact noTmpRemove_single h

/-- `pure` removes no temp directory. -/
theorem noTmpRemoveM_pure {α : Type} (a : α) : NoTmpRemoveM (M.pure a) := by
  intro env fs
  exact noTmpRemove_nil

/-- Reading the environment removes no temp directory. -/
theorem noTmpRemoveM_readEnv : NoTmpRemoveM M.readEnv := by
  intro env fs
  exact noTmpRemove_nil

/-- The template resolver never removes a temp directory on any path. -/
theorem getTemplatePath_noTmpRemove (tn : String) : NoTmpRemoveM (getTemplatePath tn) := by
  unfold getTemplatePath
  simp only [bind_def, pure_def]
  refine noTmpRemoveM_bind (noTmpRemoveM_logMsg _) ?_
  intro _
  split
  · refine noTmpRemoveM_bind noTmpRemoveM_readEnv ?_
    intro e
    refine noTmpRemoveM_bind (noTmpRemoveM_logMsg _) ?_
    intro _
    exact noTmpRemoveM_pure _
  · refine noTmpRemoveM_bind noTmpRemoveM_readEnv ?_
    intro e
    refine noTmpRemoveM_bind (noTmpRemoveM_extCall ?_ _) ?_
    · rfl
    intro _
    split
    · refine noTmpRemoveM_bind (noTmpRemoveM_logMsg _) ?_
      intro _
      refine noTmpRemoveM_bind (noTmpRemoveM_extCall ?_ _) ?_
      · rfl
      intro _
      refine noTmpRemoveM_bind (noTmpRemoveM_pure _) ?_
      intro url
      refine noTmpRemoveM_bind (noTmpRemoveM_logMsg _) ?_
      intro _
      refine noTmpRemoveM_bind (noTmpRemoveM_extCall ?_ _) ?_
      · rfl
      intro _
      refine noTmpRemoveM_bind (noTmpRemoveM_extCall ?_ _) ?_
      · rfl
      intro _
      exact noTmpRemoveM_pure _
    · refine noTmpRemoveM_bind (noTmpRemoveM_pure _) ?_
      intro url
      refine noTmpRemoveM_bind (noTmpRemoveM_logMsg _) ?_
      intro _
      refine noTmpRemoveM_bind (noTmpRemoveM_extCall ?_ _) ?_
      · rfl
      intro _
      refine noTmpRemoveM_bind (noTmpRemoveM_extCall ?_ _) ?_
      · rfl
      intro _
      exact noTmpRemoveM_pure _

/-- C6 (amended): for every template reference and every environment — on
success and on every failure path alike — the template resolver never
deletes the temp directory it allocated; cleanup is left to the caller or
to process exit. -/
theorem c6_tmpdir_never_removed (name : String) (env : Env) (fs : Files) :
    ∀ e ∈ (getTemplatePath name env fs).1, e.isTmpRemove = false :=
  getTemplatePath_noTmpRemove name env fs

/-- Witness for C6 (amended) at a concrete registry-package resolution: the
temp-directory creation event is in the trace and is not a removal. -/
theorem c6_witness :
    Ev.tmpCreate "/tmp/t1" ∈ (getTemplatePath "pkg" envW []).1 ∧
    Ev.isTmpRemove (Ev.tmpCreate "/tmp/t1") = false :=
  ⟨by decide, c6_tmpdir_never_removed "pkg" envW [] (Ev.tmpCreate "/tmp/t1") (by decide)⟩

/-- Counterexample to C6 as stated: a fully successful `create()` run over a
registry-package reference allocates a temp directory and its trace contains
no removal of it — the temp directory is not deleted after use. -/
theorem c6_counterexample_tmp_not_deleted :
    Ev.tmpCreate "/tmp/t1" ∈ (create cW envW []).1 ∧
    ((create cW envW []).1.all fun e => !e.isTmpRemove) = true ∧
    (create cW envW []).2 = .ok ((), [("app.js", "x")]) := by
  refine ⟨?_, ?_, ?_⟩ <;> decide


/-- C2: the pipeline exposes exactly the seven stages with the fixed
composition kinds (`prepare`, `resolveTemplate` waterfall; the rest series);
a waterfall hook resolves with its input when it has no taps, threads each
tap's output into the next tap and resolves with the final tap's output,
while a series hook runs every tap on the same shared argument, discards
resolved values and resolves with no data; and `create()` composes the
stages with exactly these kinds. -/
theorem c2_seven_stage_kinds_and_composition :
    hookKinds = [(.prepare, .waterfall), (.resolveTemplate, .waterfall), (.render, .series),
      (.beforeEmit, .series), (.emit, .series), (.init, .series), (.afterInit, .series)] ∧
    (∀ (α : Type) (s : Stage) (x : α) (env : Env) (fs : Files),
      waterfallRun s [] x env fs = ([], .ok (x, fs))) ∧
    (∀ (α : Type) (s : Stage) (n : String) (f : α → M α) (rest : List (String × (α → M α)))
      (x y : α) (env : Env) (fs fs' : Files) (t : Trace),
      f x env fs = (t, .ok (y, fs')) →
      waterfallRun s ((n, f) :: rest) x env fs =
        withTrace (Ev.hStart s n :: t ++ [Ev.hEnd s n]) (waterfallRun s rest y env fs')) ∧
    (∀ (α : Type) (s : Stage) (n : String) (f : α → M α) (x y : α) (env : Env)
      (fs fs' : Files) (t : Trace),
      f x env fs = (t, .ok (y, fs')) →
      (waterfallRun s [(n, f)] x env fs).2 = .ok (y, fs')) ∧
    (∀ (α β : Type) (s : Stage) (x : α) (env : Env) (fs : Files),
      seriesRun (β := β) s [] x env fs = ([], .ok ((), fs))) ∧
    (∀ (α β : Type) (s : Stage) (n : String) (f : α → M β) (rest : List (String × (α → M β)))
      (x : α) (y : β) (env : Env) (fs fs' : Files) (t : Trace),
      f x env fs = (t, .ok (y, fs')) →
      seriesRun s ((n, f) :: rest) x env fs =
        withTrace (Ev.hStart s n :: t ++ [Ev.hEnd s n]) (seriesRun s rest x env fs')) ∧
    (∀ c : Creator, create c =
      M.bind (waterfallRun .prepare (prepareTaps c.plugins) (initialInfos c)) fun infos =>
      M.bind (waterfallRun .resolveTemplate (resolveTemplateTaps c) infos.templateName)
        fun templatePath =>
      M.bind (M.setFiles []) fun _ =>
      M.bind (seriesRun .render (renderTaps c)
        ⟨infos.projectName, infos.appId, templatePath⟩) fun _ =>
      M.bind (seriesRun .beforeEmit (beforeEmitTaps c.plugins) ()) fun _ =>
      M.bind (seriesRun .emit (emitTaps c) c.context) fun _ =>
      M.bind (seriesRun .init (initTaps c) c.context) fun _ =>
      seriesRun .afterInit (afterInitTaps c) c.context) := by
  refine ⟨rfl, ?_, ?_, ?_, ?_, ?_, ?_⟩
  · intro α s x env fs
    exact waterfallRun_nil s x env fs
  · intro α s n f rest x y env fs fs' t h
    exact waterfallRun_cons_ok h
  · intro α s n f x y env fs fs' t h
    rw [waterfallRun_cons_ok h, withTrace_snd, waterfallRun_nil]
  · intro α β s x env fs
    exact seriesRun_nil s x env fs
  · intro α β s n f rest x y env fs fs' t h
    exact seriesRun_cons_ok h
  · intro c
    rfl

/-- Witness for C2: the waterfall chaining equation at two concrete taps —
the second tap observably receives the first tap's output. -/
theorem c2_witness :
    waterfallRun (α := Nat) .prepare
        [("a", fun z => M.pure (z + 1)), ("b", fun z => M.pure (z * 2))] 3 envW [] =
      withTrace (Ev.hStart .prepare "a" :: [] ++ [Ev.hEnd .prepare "a"])
        (waterfallRun .prepare [("b", fun z => M.pure (z * 2))] 4 envW []) :=
  c2_seven_stage_kinds_and_composition.2.2.1 Nat .prepare "a"
    (fun z => M.pure (z + 1)) [("b", fun z => M.pure (z * 2))] 3 4 envW [] [] [] rfl

/-- C10: a creator constructed without `projectName`, `appId` or
`templateName` passes the empty string (not `undefined`) for each missing
field as the initial `prepare` input; `create()` consists of the `prepare`
waterfall chained into `afterPrep`, which consumes only the `prepare`
output, the taps and the context — it does not depend on the creator's
metadata fields, which `create()` never updates. -/
theorem c10_empty_defaults_and_prepare_output (c : Creator)
    (h1 : c.projectName? = none) (h2 : c.appId? = none) (h3 : c.templateName? = none) :
    initialInfos c = ⟨"", "", ""⟩ ∧
    create c = M.bind (runPrep c) (afterPrep c) ∧
    (∀ c' : Creator, c'.context = c.context → c'.plugins = c.plugins →
      afterPrep c' = afterPrep c) := by
  refine ⟨?_, create_eq c, ?_⟩
  · unfold initialInfos
    rw [h1, h2, h3]
    rfl
  · intro c' hctx hp
    unfold afterPrep runResolve runRender runBeforeEmit runEmit runInit runAfterInit
      resolveTemplateTaps renderTaps emitTaps initTaps afterInitTaps
    rw [hctx, hp]

/-- Witness for C10 at a concrete creator with no metadata. -/
theorem c10_witness :
    initialInfos cW0 = ⟨"", "", ""⟩ ∧ afterPrep cW0 = afterPrep cW0 :=
  ⟨(c10_empty_defaults_and_prepare_output cW0 rfl rfl rfl).1,
   (c10_empty_defaults_and_prepare_output cW0 rfl rfl rfl).2.2 cW0 rfl rfl⟩



/-- Matching heads of a character-list prefix. -/
theorem prefix_head {a b : Char} {as bs : List Char}
    (h : List.isPrefixOf (a :: as) (b :: bs) = true) : a = b := by
  simp only [List.isPrefixOf, Bool.and_eq_true] at h
  exact eq_of_beq h.1

/-- An absolute http(s) URL never carries the `file://` marker. -/
theorem isHttpUrl_not_file {u : String} (hu : isHttpUrl u = true) :
    strStarts "file://" u = false := by
  unfold isHttpUrl strStarts at *
  cases hd : u.data with
  | nil =>
    rw [hd] at hu
    exact absurd hu (by decide)
  | cons c l =>
    rw [hd] at hu
    have hc : c = 'h' := by
      rw [Bool.or_eq_true] at hu
      rcases hu with h | h
      · rw [show ("http://" : String).data = 'h' :: ['t', 't', 'p', ':', '/', '/'] from rfl] at h
        exact (prefix_head h).symm
      · rw [show ("https://" : String).data = 'h' :: ['t', 't', 'p', 's', ':', '/', '/'] from rfl] at h
        exact (prefix_head h).symm
    subst hc
    rw [show ("file://" : String).data = 'f' :: ['i', 'l', 'e', ':', '/', '/'] from rfl]
    simp only [List.isPrefixOf]
    rw [show ('f' == 'h') = false from rfl, Bool.false_and]

/-- C5: for a template reference that is neither `file://` nor an absolute
http(s) URL, the resolver issues exactly one package-metadata lookup, every
download attempt comes strictly after that lookup, and from the download on
the run is identical — same download computation, hence same trailing trace
and same outcome — to resolving the looked-up tarball URL as a Remote
reference (whose run performs no lookup at all). -/
theorem c5_registry_lookup_once_then_remote (name : String) (env : Env) (fs : Files)
    (u : String) (hu_def : u = strTrim (env.npmTarball name))
    (h1 : strStarts "file://" name = false) (h2 : isHttpUrl name = false)
    (hu : isHttpUrl u = true)
    (htmp : env.extOk (.tmpCreate env.tmpName) = true)
    (hnpm : env.extOk (.npmLookup name) = true) :
    (getTemplatePath name env fs =
      withTrace [.log ("use " ++ name), .tmpCreate env.tmpName,
                 .log ("npm " ++ name), .npmLookup name]
        ((M.bind (M.logMsg ("download " ++ u)) fun _ =>
          M.bind (M.extCall (.httpGet u) "DownloadError") fun _ =>
          M.bind (M.extCall (.tarExtract env.tmpName) "ExtractionError") fun _ =>
          M.pure (pathJoin (pathJoin env.tmpName "package") "template")) env fs)) ∧
    (getTemplatePath u env fs =
      withTrace [.log ("use " ++ u), .tmpCreate env.tmpName]
        ((M.bind (M.logMsg ("download " ++ u)) fun _ =>
          M.bind (M.extCall (.httpGet u) "DownloadError") fun _ =>
          M.bind (M.extCall (.tarExtract env.tmpName) "ExtractionError") fun _ =>
          M.pure (pathJoin (pathJoin env.tmpName "package") "template")) env fs)) ∧
    ((getTemplatePath name env fs).1.filter Ev.isNpmLookup = [.npmLookup name]) ∧
    (∀ url, precedes (Ev.npmLookup name) (Ev.httpGet url) (getTemplatePath name env fs).1) ∧
    ((getTemplatePath u env fs).1.filter Ev.isNpmLookup = []) := by
  have hreg : getTemplatePath name env fs =
      withTrace [.log ("use " ++ name), .tmpCreate env.tmpName,
                 .log ("npm " ++ name), .npmLookup name]
        ((M.bind (M.logMsg ("download " ++ u)) fun _ =>
          M.bind (M.extCall (.httpGet u) "DownloadError") fun _ =>
          M.bind (M.extCall (.tarExtract env.tmpName) "ExtractionError") fun _ =>
          M.pure (pathJoin (pathJoin env.tmpName "package") "template")) env fs) := by
    unfold getTemplatePath
    simp only [bind_def, pure_def]
    rw [M.bind_ok (logMsg_run _ _ _)]
    rw [if_neg (by rw [h1]; exact Bool.false_ne_true)]
    rw [M.bind_ok (readEnv_run _ _)]
    rw [M.bind_ok (extCall_ok _ _ htmp)]
    rw [if_pos (by rw [h2]; rfl)]
    rw [M.bind_ok (logMsg_run _ _ _)]
    rw [M.bind_ok (extCall_ok _ _ hnpm)]
    rw [M.bind_ok (pure_run _ _ _)]
    rw [← hu_def]
    simp [withTrace]
  have hrem : getTemplatePath u env fs =
      withTrace [.log ("use " ++ u), .tmpCreate env.tmpName]
        ((M.bind (M.logMsg ("download " ++ u)) fun _ =>
          M.bind (M.extCall (.httpGet u) "DownloadError") fun _ =>
          M.bind (M.extCall (.tarExtract env.tmpName) "ExtractionError") fun _ =>
          M.pure (pathJoin (pathJoin env.tmpName "package") "template")) env fs) := by
    unfold getTemplatePath
    simp only [bind_def, pure_def]
    rw [M.bind_ok (logMsg_run _ _ _)]
    rw [if_neg (by rw [isHttpUrl_not_file hu]; exact Bool.false_ne_true)]
    rw [M.bind_ok (readEnv_run _ _)]
    rw [M.bind_ok (extCall_ok _ _ htmp)]
    rw [if_neg (by rw [hu]; exact Bool.false_ne_true)]
    rw [M.bind_ok (pure_run _ _ _)]
    simp [withTrace]
  have hdl : ((M.bind (M.logMsg ("download " ++ u)) fun _ =>
          M.bind (M.extCall (.httpGet u) "DownloadError") fun _ =>
          M.bind (M.extCall (.tarExtract env.tmpName) "ExtractionError") fun _ =>
          M.pure (pathJoin (pathJoin env.tmpName "package") "template")) env fs).1 =
        [.log ("download " ++ u), .httpGet u] ∨
      ((M.bind (M.logMsg ("download " ++ u)) fun _ =>
          M.bind (M.extCall (.httpGet u) "DownloadError") fun _ =>
          M.bind (M.extCall (.tarExtract env.tmpName) "ExtractionError") fun _ =>
          M.pure (pathJoin (pathJoin env.tmpName "package") "template")) env fs).1 =
        [.log ("download " ++ u), .httpGet u, .tarExtract env.tmpName] := by
    rcases hh : env.extOk (.httpGet u) with _ | _
    · left
      rw [M.bind_ok (logMsg_run _ _ _)]
      rw [M.bind_error (extCall_error _ _ hh)]
      rfl
    · right
      rw [M.bind_ok (logMsg_run _ _ _)]
      rw [M.bind_ok (extCall_ok _ _ hh)]
      rcases ht : env.extOk (.tarExtract env.tmpName) with _ | _
      · rw [M.bind_error (extCall_error _ _ ht)]
        rfl
      · rw [M.bind_ok (extCall_ok _ _ ht)]
        rfl
  refine ⟨hreg, hrem, ?_, ?_, ?_⟩
  · rw [hreg, withTrace_fst]
    rcases hdl with h | h <;> rw [h] <;> rfl
  · intro url
    rw [hreg, withTrace_fst]
    refine precedes_append_left ?_ ?_
    · simp
    · simp
  · rw [hrem, withTrace_fst]
    rcases hdl with h | h <;> rw [h] <;> rfl

/-- Witness for C5 at a concrete registry-package reference. -/
theorem c5_witness :
    (getTemplatePath "pkg" envW []).1.filter Ev.isNpmLookup = [.npmLookup "pkg"] ∧
    (getTemplatePath "https://registry/x.tgz" envW []).1.filter Ev.isNpmLookup = [] :=
  ⟨(c5_registry_lookup_once_then_remote "pkg" envW [] "https://registry/x.tgz"
      (by decide) (by decide) (by decide) (by decide) rfl rfl).2.2.1,
   (c5_registry_lookup_once_then_remote "pkg" envW [] "https://registry/x.tgz"
      (by decide) (by decide) (by decide) (by decide) rfl rfl).2.2.2.2⟩


/-- The `render` stage always runs its series hook on the freshly emptied
file set, whatever the file set held before (`const files = {}`). -/
theorem runRender_run (c : Creator) (i : Infos) (tp : String) (env : Env) (fs : Files) :
    runRender c i tp env fs =
      seriesRun .render (renderTaps c) ⟨i.projectName, i.appId, tp⟩ env [] := by
  unfold runRender
  simp only [bind_def]
  rw [M.bind_ok (setFiles_run _ _ _)]
  rcases h : seriesRun .render (renderTaps c) ⟨i.projectName, i.appId, tp⟩ env [] with ⟨t, r⟩
  simp [withTrace]

/-- The `afterInit` hook has no taps, so its stage resolves at once. -/
theorem runAfterInit_run (c : Creator) (env : Env) (fs : Files) :
    runAfterInit c env fs = ([], .ok ((), fs)) := rfl

/-- Evaluating the default `emit` tap: it emits the `syncFiles` call on the
file set it observes. -/
theorem defaultEmitTap_run (ctx : String) (env : Env) (fs : Files) :
    defaultEmitTap ctx env fs =
      ([Ev.syncFiles ctx fs],
       if env.extOk (.syncFiles ctx fs) then .ok ((), fs) else .error "WriteError") := by
  unfold defaultEmitTap
  simp only [bind_def]
  rw [M.bind_ok (getFiles_run _ _)]
  unfold M.extCall withTrace
  simp

/-- `create()` splits at the `render`/`beforeEmit` boundary. -/
theorem create_eq2 (c : Creator) :
    create c = M.bind (createUpToRender c) fun _ => createTail c := by
  rw [create_eq]
  unfold afterPrep createUpToRender createTail
  rw [M.bind_assoc]
  refine congrArg _ (funext fun infos => ?_)
  rw [M.bind_assoc]

/-- A stage whose hooks are all of stage `s` contains no start event of a
different stage. -/
theorem no_hStart_of_stageHooksOnly {s s' : Stage} (hne : s' ≠ s) {t : Trace}
    (h : StageHooksOnly s t) : ∀ n, Ev.hStart s' n ∉ t := by
  intro n hmem
  rcases h _ hmem with h0 | h0
  · cases h0
  · injection h0 with h0
    exact hne h0

/-- A stage whose hooks are all of stage `s` contains no settle event of a
different stage either. -/
theorem no_hEnd_of_stageHooksOnly {s s' : Stage} (hne : s' ≠ s) {t : Trace}
    (h : StageHooksOnly s t) : ∀ n, Ev.hEnd s' n ∉ t := by
  intro n hmem
  rcases h _ hmem with h0 | h0
  · cases h0
  · injection h0 with h0
    exact hne h0

/-- All hook events of the `prepare` stage run belong to `prepare`. -/
theorem runPrep_hooks {c : Creator} (hc : c.CleanPlugins) (env : Env) (fs : Files) :
    StageHooksOnly .prepare (runPrep c env fs).1 :=
  waterfallRun_stageHooks .prepare (prepareTaps c.plugins) (prepareTaps_clean hc)
    (initialInfos c) env fs

/-- All hook events of the `resolveTemplate` stage run belong to it. -/
theorem runResolve_hooks {c : Creator} (hc : c.CleanPlugins) (i : Infos)
    (env : Env) (fs : Files) :
    StageHooksOnly .resolveTemplate (runResolve c i env fs).1 :=
  waterfallRun_stageHooks .resolveTemplate (resolveTemplateTaps c)
    (resolveTemplateTaps_clean hc) i.templateName env fs

/-- All hook events of the `render` stage run belong to it. -/
theorem runRender_hooks {c : Creator} (hc : c.CleanPlugins) (i : Infos) (tp : String)
    (env : Env) (fs : Files) :
    StageHooksOnly .render (runRender c i tp env fs).1 := by
  rw [runRender_run]
  exact seriesRun_stageHooks .render (renderTaps c) (renderTaps_clean hc) _ env []

/-- All hook events of the `beforeEmit` stage run belong to it. -/
theorem runBeforeEmit_hooks {c : Creator} (hc : c.CleanPlugins) (env : Env) (fs : Files) :
    StageHooksOnly .beforeEmit (runBeforeEmit c env fs).1 :=
  seriesRun_stageHooks .beforeEmit (beforeEmitTaps c.plugins)
    (beforeEmitTaps_clean hc) () env fs

/-- All hook events of the `emit` stage run belong to it. -/
theorem runEmit_hooks {c : Creator} (hc : c.CleanPlugins) (env : Env) (fs : Files) :
    StageHooksOnly .emit (runEmit c env fs).1 :=
  seriesRun_stageHooks .emit (emitTaps c) (emitTaps_clean hc) c.context env fs

/-- All hook events of the `init` stage run belong to it. -/
theorem runInit_hooks {c : Creator} (hc : c.CleanPlugins) (env : Env) (fs : Files) :
    StageHooksOnly .init (runInit c env fs).1 :=
  seriesRun_stageHooks .init (initTaps c) (initTaps_clean hc) c.context env fs

/-- Every hook event of the first three chained stages of `create()` belongs
to `prepare`, `resolveTemplate` or `render`. -/
theorem createUpToRender_hooks {c : Creator} (hc : c.CleanPlugins) (env : Env) (fs : Files) :
    ∀ ev ∈ (createUpToRender c env fs).1, hookEvStage ev = none ∨
      hookEvStage ev = some .prepare ∨ hookEvStage ev = some .resolveTemplate ∨
      hookEvStage ev = some .render := by
  unfold createUpToRender
  rcases hp : runPrep c env fs with ⟨t1, r1⟩
  have h1 : StageHooksOnly .prepare t1 := by
    have := runPrep_hooks hc env fs
    rw [hp] at this
    exact this
  cases r1 with
  | error e1 =>
    rw [M.bind_error hp]
    intro ev hev
    rcases h1 ev hev with h | h
    · exact Or.inl h
    · exact Or.inr (Or.inl h)
  | ok p1 =>
    rcases p1 with ⟨i, f1⟩
    rw [M.bind_ok hp, withTrace_fst]
    intro ev hev
    rcases List.mem_append.mp hev with hev | hev
    · rcases h1 ev hev with h | h
      · exact Or.inl h
      · exact Or.inr (Or.inl h)
    · rcases hr : runResolve c i env f1 with ⟨t2, r2⟩
      have h2 : StageHooksOnly .resolveTemplate t2 := by
        have := runResolve_hooks hc i env f1
        rw [hr] at this
        exact this
      cases r2 with
      | error e2 =>
        rw [M.bind_error hr] at hev
        rcases h2 ev hev with h | h
        · exact Or.inl h
        · exact Or.inr (Or.inr (Or.inl h))
      | ok p2 =>
        rcases p2 with ⟨tp, f2⟩
        rw [M.bind_ok hr, withTrace_fst] at hev
        rcases List.mem_append.mp hev with hev | hev
        · rcases h2 ev hev with h | h
          · exact Or.inl h
          · exact Or.inr (Or.inr (Or.inl h))
        · have h3 := runRender_hooks hc i tp env f2
          rcases h3 ev hev with h | h
          · exact Or.inl h
          · exact Or.inr (Or.inr (Or.inr h))


/-- Non-membership distributes over concatenation. -/
theorem not_mem_append {a : Ev} {t₁ t₂ : Trace} (h1 : a ∉ t₁) (h2 : a ∉ t₂) :
    a ∉ t₁ ++ t₂ := fun h => (List.mem_append.mp h).elim h1 h2

/-- A trace whose hook events all belong to stage `m` contains no start
event of any pipeline-later stage. -/
theorem no_hStart_of_lt {m s : Stage} {t : Trace} (h : StageHooksOnly m t)
    (hlt : m.idx < s.idx) : ∀ n, Ev.hStart s n ∉ t :=
  no_hStart_of_stageHooksOnly (fun he => absurd (he ▸ hlt) (lt_irrefl _)) h

/-- C3: whichever stage a failing handler belongs to, its rejection — after
the earlier stages settled — makes `create()` reject with exactly that
error, with exactly the trace accumulated so far, and no handler of any
later stage ever starts: one conjunct per fallible stage (`afterInit` has
no taps).  In particular a `beforeEmit` rejection means `emit`, `init` and
`afterInit` never execute, and the failure reaches the caller unchanged. -/
theorem c3_any_handler_failure_aborts (c : Creator) (hc : c.CleanPlugins)
    (env : Env) (fs : Files) :
    (∀ t1 e, runPrep c env fs = (t1, .error e) →
      create c env fs = (t1, .error e) ∧
      ∀ s : Stage, 0 < s.idx → ∀ n, Ev.hStart s n ∉ t1) ∧
    (∀ t1 i f1 t2 e, runPrep c env fs = (t1, .ok (i, f1)) →
      runResolve c i env f1 = (t2, .error e) →
      create c env fs = (t1 ++ t2, .error e) ∧
      ∀ s : Stage, 1 < s.idx → ∀ n, Ev.hStart s n ∉ t1 ++ t2) ∧
    (∀ t1 i f1 t2 tp f2 t3 e, runPrep c env fs = (t1, .ok (i, f1)) →
      runResolve c i env f1 = (t2, .ok (tp, f2)) →
      runRender c i tp env f2 = (t3, .error e) →
      create c env fs = (t1 ++ (t2 ++ t3), .error e) ∧
      ∀ s : Stage, 2 < s.idx → ∀ n, Ev.hStart s n ∉ t1 ++ (t2 ++ t3)) ∧
    (∀ t1 i f1 t2 tp f2 t3 f3 t4 e, runPrep c env fs = (t1, .ok (i, f1)) →
      runResolve c i env f1 = (t2, .ok (tp, f2)) →
      runRender c i tp env f2 = (t3, .ok ((), f3)) →
      runBeforeEmit c env f3 = (t4, .error e) →
      create c env fs = (t1 ++ (t2 ++ (t3 ++ t4)), .error e) ∧
      ∀ s : Stage, 3 < s.idx → ∀ n, Ev.hStart s n ∉ t1 ++ (t2 ++ (t3 ++ t4))) ∧
    (∀ t1 i f1 t2 tp f2 t3 f3 t4 f4 t5 e, runPrep c env fs = (t1, .ok (i, f1)) →
      runResolve c i env f1 = (t2, .ok (tp, f2)) →
      runRender c i tp env f2 = (t3, .ok ((), f3)) →
      runBeforeEmit c env f3 = (t4, .ok ((), f4)) →
      runEmit c env f4 = (t5, .error e) →
      create c env fs = (t1 ++ (t2 ++ (t3 ++ (t4 ++ t5))), .error e) ∧
      ∀ s : Stage, 4 < s.idx → ∀ n, Ev.hStart s n ∉ t1 ++ (t2 ++ (t3 ++ (t4 ++ t5)))) ∧
    (∀ t1 i f1 t2 tp f2 t3 f3 t4 f4 t5 f5 t6 e, runPrep c env fs = (t1, .ok (i, f1)) →
      runResolve c i env f1 = (t2, .ok (tp, f2)) →
      runRender c i tp env f2 = (t3, .ok ((), f3)) →
      runBeforeEmit c env f3 = (t4, .ok ((), f4)) →
      runEmit c env f4 = (t5, .ok ((), f5)) →
      runInit c env f5 = (t6, .error e) →
      create c env fs = (t1 ++ (t2 ++ (t3 ++ (t4 ++ (t5 ++ t6)))), .error e) ∧
      ∀ s : Stage, 5 < s.idx → ∀ n,
        Ev.hStart s n ∉ t1 ++ (t2 ++ (t3 ++ (t4 ++ (t5 ++ t6))))) := by
  refine ⟨?_, ?_, ?_, ?_, ?_, ?_⟩
  · intro t1 e h1
    have H1 : StageHooksOnly .prepare t1 := by
      have := runPrep_hooks hc env fs
      rw [h1] at this
      exact this
    constructor
    · rw [create_eq]
      exact M.bind_error h1
    · intro s hs n
      exact no_hStart_of_lt H1 hs n
  · intro t1 i f1 t2 e h1 h2
    have H1 : StageHooksOnly .prepare t1 := by
      have := runPrep_hooks hc env fs
      rw [h1] at this
      exact this
    have H2 : StageHooksOnly .resolveTemplate t2 := by
      have := runResolve_hooks hc i env f1
      rw [h2] at this
      exact this
    constructor
    · have hcr : create c env fs = withTrace t1 (afterPrep c i env f1) := by
        rw [create_eq]
        exact M.bind_ok h1
      have ha : afterPrep c i env f1 = (t2, .error e) := by
        unfold afterPrep
        exact M.bind_error h2
      rw [hcr, ha]
      rfl
    · intro s hs n
      exact not_mem_append (no_hStart_of_lt H1 (Nat.lt_of_le_of_lt (by decide) hs) n) (no_hStart_of_lt H2 hs n)
  · intro t1 i f1 t2 tp f2 t3 e h1 h2 h3
    have H1 : StageHooksOnly .prepare t1 := by
      have := runPrep_hooks hc env fs
      rw [h1] at this
      exact this
    have H2 : StageHooksOnly .resolveTemplate t2 := by
      have := runResolve_hooks hc i env f1
      rw [h2] at this
      exact this
    have H3 : StageHooksOnly .render t3 := by
      have := runRender_hooks hc i tp env f2
      rw [h3] at this
      exact this
    constructor
    · have hcr : create c env fs = withTrace t1 (afterPrep c i env f1) := by
        rw [create_eq]
        exact M.bind_ok h1
      have ha : afterPrep c i env f1 = withTrace t2
          ((M.bind (runRender c i tp) fun _ => createTail c) env f2) := by
        unfold afterPrep
        exact M.bind_ok h2
      rw [hcr, ha, M.bind_error h3]
      rfl
    · intro s hs n
      exact not_mem_append (no_hStart_of_lt H1 (Nat.lt_of_le_of_lt (by decide) hs) n)
        (not_mem_append (no_hStart_of_lt H2 (Nat.lt_of_le_of_lt (by decide) hs) n) (no_hStart_of_lt H3 hs n))
  · intro t1 i f1 t2 tp f2 t3 f3 t4 e h1 h2 h3 h4
    have H1 : StageHooksOnly .prepare t1 := by
      have := runPrep_hooks hc env fs
      rw [h1] at this
      exact this
    have H2 : StageHooksOnly .resolveTemplate t2 := by
      have := runResolve_hooks hc i env f1
      rw [h2] at this
      exact this
    have H3 : StageHooksOnly .render t3 := by
      have := runRender_hooks hc i tp env f2
      rw [h3] at this
      exact this
    have H4 : StageHooksOnly .beforeEmit t4 := by
      have := runBeforeEmit_hooks hc env f3
      rw [h4] at this
      exact this
    constructor
    · have hcr : create c env fs = withTrace t1 (afterPrep c i env f1) := by
        rw [create_eq]
        exact M.bind_ok h1
      have ha : afterPrep c i env f1 = withTrace t2
          ((M.bind (runRender c i tp) fun _ => createTail c) env f2) := by
        unfold afterPrep
        exact M.bind_ok h2
      have htail : createTail c env f3 = (t4, .error e) := by
        unfold createTail
        exact M.bind_error h4
      rw [hcr, ha, M.bind_ok h3, htail]
      rfl
    · intro s hs n
      exact not_mem_append (no_hStart_of_lt H1 (Nat.lt_of_le_of_lt (by decide) hs) n)
        (not_mem_append (no_hStart_of_lt H2 (Nat.lt_of_le_of_lt (by decide) hs) n)
          (not_mem_append (no_hStart_of_lt H3 (Nat.lt_of_le_of_lt (by decide) hs) n) (no_hStart_of_lt H4 hs n)))
  · intro t1 i f1 t2 tp f2 t3 f3 t4 f4 t5 e h1 h2 h3 h4 h5
    have H1 : StageHooksOnly .prepare t1 := by
      have := runPrep_hooks hc env fs
      rw [h1] at this
      exact this
    have H2 : StageHooksOnly .resolveTemplate t2 := by
      have := runResolve_hooks hc i env f1
      rw [h2] at this
      exact this
    have H3 : StageHooksOnly .render t3 := by
      have := runRender_hooks hc i tp env f2
      rw [h3] at this
      exact this
    have H4 : StageHooksOnly .beforeEmit t4 := by
      have := runBeforeEmit_hooks hc env f3
      rw [h4] at this
      exact this
    have H5 : StageHooksOnly .emit t5 := by
      have := runEmit_hooks hc env f4
      rw [h5] at this
      exact this
    constructor
    · have hcr : create c env fs = withTrace t1 (afterPrep c i env f1) := by
        rw [create_eq]
        exact M.bind_ok h1
      have ha : afterPrep c i env f1 = withTrace t2
          ((M.bind (runRender c i tp) fun _ => createTail c) env f2) := by
        unfold afterPrep
        exact M.bind_ok h2
      have htail : createTail c env f3 = withTrace t4
          ((M.bind (runEmit c) fun _ =>
            M.bind (runInit c) fun _ => runAfterInit c) env f4) := by
        unfold createTail
        exact M.bind_ok h4
      rw [hcr, ha, M.bind_ok h3, htail, M.bind_error h5]
      rfl
    · intro s hs n
      exact not_mem_append (no_hStart_of_lt H1 (Nat.lt_of_le_of_lt (by decide) hs) n)
        (not_mem_append (no_hStart_of_lt H2 (Nat.lt_of_le_of_lt (by decide) hs) n)
          (not_mem_append (no_hStart_of_lt H3 (Nat.lt_of_le_of_lt (by decide) hs) n)
            (not_mem_append (no_hStart_of_lt H4 (Nat.lt_of_le_of_lt (by decide) hs) n)
              (no_hStart_of_lt H5 hs n))))
  · intro t1 i f1 t2 tp f2 t3 f3 t4 f4 t5 f5 t6 e h1 h2 h3 h4 h5 h6
    have H1 : StageHooksOnly .prepare t1 := by
      have := runPrep_hooks hc env fs
      rw [h1] at this
      exact this
    have H2 : StageHooksOnly .resolveTemplate t2 := by
      have := runResolve_hooks hc i env f1
      rw [h2] at this
      exact this
    have H3 : StageHooksOnly .render t3 := by
      have := runRender_hooks hc i tp env f2
      rw [h3] at this
      exact this
    have H4 : StageHooksOnly .beforeEmit t4 := by
      have := runBeforeEmit_hooks hc env f3
      rw [h4] at this
      exact this
    have H5 : StageHooksOnly .emit t5 := by
      have := runEmit_hooks hc env f4
      rw [h5] at this
      exact this
    have H6 : StageHooksOnly .init t6 := by
      have := runInit_hooks hc env f5
      rw [h6] at this
      exact this
    constructor
    · have hcr : create c env fs = withTrace t1 (afterPrep c i env f1) := by
        rw [create_eq]
        exact M.bind_ok h1
      have ha : afterPrep c i env f1 = withTrace t2
          ((M.bind (runRender c i tp) fun _ => createTail c) env f2) := by
        unfold afterPrep
        exact M.bind_ok h2
      have htail : createTail c env f3 = withTrace t4
          ((M.bind (runEmit c) fun _ =>
            M.bind (runInit c) fun _ => runAfterInit c) env f4) := by
        unfold createTail
        exact M.bind_ok h4
      rw [hcr, ha, M.bind_ok h3, htail, M.bind_ok h5, M.bind_error h6]
      rfl
    · intro s hs n
      exact not_mem_append (no_hStart_of_lt H1 (Nat.lt_of_le_of_lt (by decide) hs) n)
        (not_mem_append (no_hStart_of_lt H2 (Nat.lt_of_le_of_lt (by decide) hs) n)
          (not_mem_append (no_hStart_of_lt H3 (Nat.lt_of_le_of_lt (by decide) hs) n)
            (not_mem_append (no_hStart_of_lt H4 (Nat.lt_of_le_of_lt (by decide) hs) n)
              (not_mem_append (no_hStart_of_lt H5 (Nat.lt_of_le_of_lt (by decide) hs) n)
                (no_hStart_of_lt H6 hs n)))))

/-- Witness for C3: a concrete creator whose single plugin rejects in
`beforeEmit`; `create()` rejects with that error after exactly the first
four stages' trace, and no `emit` handler starts. -/
theorem c3_witness :
    create cW3 envW [] =
      ([.hStart .resolveTemplate "creator", .log "use file:///tpl",
        .log "local /tpl/template", .hEnd .resolveTemplate "creator",
        .hStart .render "creator", .renderCall "/tpl/template" "**/*" "" "",
        .hEnd .render "creator", .hStart .beforeEmit "p"], .error "boom") ∧
    Ev.hStart .emit "creator" ∉
      ([.hStart .resolveTemplate "creator", .log "use file:///tpl",
        .log "local /tpl/template", .hEnd .resolveTemplate "creator",
        .hStart .render "creator", .renderCall "/tpl/template" "**/*" "" "",
        .hEnd .render "creator", .hStart .beforeEmit "p"] : Trace) := by
  have hclean : cW3.CleanPlugins := by
    intro p hp
    have hp' := List.mem_singleton.mp hp
    subst hp'
    refine ⟨?_, ?_, ?_, ?_, ?_, ?_⟩
    · intro f hf
      cases hf
    · intro f hf
      cases hf
    · intro f hf
      cases hf
    · intro f hf x
      have h := List.mem_singleton.mp hf
      subst h
      intro env fs
      exact noHookEvs_nil
    · intro f hf
      cases hf
    · intro f hf
      cases hf
  have h := (c3_any_handler_failure_aborts cW3 hclean envW []).2.2.2.1
    _ _ _ _ _ _ _ _ _ _ rfl rfl rfl rfl
  exact ⟨h.1, h.2 .emit (by decide) "creator"⟩

/-- C7: the `render` stage always starts from the freshly created empty file
set; the file set in which `emit` (and everything after it) runs is exactly
the one produced by threading that empty set through all `render` and then
all `beforeEmit` handlers — every entry added, removed or rewritten there is
visible to `emit` — and the default `emit` handler observably receives
exactly that file set in its `syncFiles` call. -/
theorem c7_fileset_mutations_visible_to_emit (c : Creator) (env : Env) (fs : Files)
    (t4 : Trace) (fs4 : Files) (t5 : Trace) (fs5 : Files)
    (h4 : createUpToRender c env fs = (t4, .ok ((), fs4)))
    (h5 : runBeforeEmit c env fs4 = (t5, .ok ((), fs5))) :
    (∀ (i : Infos) (tp : String) (fs0 : Files), runRender c i tp env fs0 =
      seriesRun .render (renderTaps c) ⟨i.projectName, i.appId, tp⟩ env []) ∧
    create c env fs = withTrace (t4 ++ t5)
      ((M.bind (runEmit c) fun _ => M.bind (runInit c) fun _ => runAfterInit c) env fs5) ∧
    (runEmit c env fs5).1.take 2 =
      [Ev.hStart .emit "creator", Ev.syncFiles c.context fs5] := by
  refine ⟨fun i tp fs0 => runRender_run c i tp env fs0, ?_, ?_⟩
  · rw [create_eq2, M.bind_ok h4]
    unfold createTail
    rw [M.bind_ok h5]
    unfold withTrace
    simp
  · unfold runEmit emitTaps
    rcases hd : defaultEmitTap c.context env fs5 with ⟨td, rd⟩
    have htd : td = [Ev.syncFiles c.context fs5] := by
      have := defaultEmitTap_run c.context env fs5
      rw [hd] at this
      exact congrArg Prod.fst this
    cases rd with
    | error ed =>
      rw [seriesRun_cons_error hd, htd]
      rfl
    | ok pd =>
      rcases pd with ⟨y, fsd⟩
      rw [seriesRun_cons_ok hd, withTrace_fst, htd]
      rfl

/-- Witness for C7: a plugin adds `extra.txt` during `render` and rewrites
`app.js` during `beforeEmit`; the default `emit` handler receives exactly
the mutated file set. -/
theorem c7_witness :
    (runEmit cW7 envW [("app.js", "rewritten"), ("extra.txt", "hi")]).1.take 2 =
      [Ev.hStart .emit "creator",
       Ev.syncFiles "/proj" [("app.js", "rewritten"), ("extra.txt", "hi")]] :=
  (c7_fileset_mutations_visible_to_emit cW7 envW [] _ _ _ _ rfl rfl).2.2


/-- A hook-event-free trace contains no handler-start event. -/
theorem hStart_not_mem_noHook {s : Stage} {u : String} {t : Trace} (h : NoHookEvs t) :
    Ev.hStart s u ∉ t := by
  intro hm
  have h0 := h _ hm
  simp [hookEvStage] at h0

/-- Precedence survives prepending a segment free of the tracked event. -/
theorem precedes_prepend {a b : Ev} {t0 T : Trace} (hb : b ∉ t0)
    (h : precedes a b T) : precedes a b (t0 ++ T) := by
  intro pre post heq
  rcases append_split_of_not_mem hb heq with ⟨m, rfl, h2⟩
  exact List.mem_append_right t0 (h m post h2)

/-- Splitting a concatenation at an occurrence of `b` that cannot lie in the
right part: the occurrence lies in the left part. -/
theorem split_right_of_not_mem {b : Ev} {S B m post : Trace}
    (hB : b ∉ B) (h : S ++ B = m ++ b :: post) :
    ∃ postS, S = m ++ b :: postS ∧ post = postS ++ B := by
  induction S generalizing m with
  | nil =>
    rw [List.nil_append] at h
    exact absurd (h ▸ List.mem_append_right m (List.mem_cons_self b post)) hB
  | cons c S' ih =>
    cases m with
    | nil =>
      rw [List.cons_append, List.nil_append] at h
      injection h with h1 h2
      subst h1
      exact ⟨S', rfl, h2.symm⟩
    | cons d m' =>
      rw [List.cons_append, List.cons_append] at h
      injection h with h1 h2
      rcases ih h2 with ⟨postS, hS, hp⟩
      refine ⟨postS, ?_, hp⟩
      rw [List.cons_append, h1, hS]

/-- Precedence survives appending a segment, provided the preceding event
already occurs in the left part. -/
theorem precedes_append_of_mem {a b : Ev} {S B : Trace}
    (hS : precedes a b S) (ha : a ∈ S) : precedes a b (S ++ B) := by
  intro pre post heq
  rcases List.append_eq_append_iff.mp heq.symm with ⟨m, hpre, hB⟩ | ⟨m, hs, hbpost⟩
  · cases m with
    | nil =>
      rw [List.append_nil] at hpre
      exact hpre ▸ ha
    | cons c m' =>
      rw [List.cons_append] at hB
      injection hB with hb1 hb2
      subst hb1
      exact hS pre m' hpre
  · rw [hs]
    exact List.mem_append_left m ha

/-- A series hook whose first registered tap is the `'creator'` default:
the default's settle event precedes every other tap's start event, and if
the hook resolves the default's settle event occurred. -/
theorem seriesRun_creator_spec {α β : Type} (s : Stage) (f : α → M β)
    (us : List (String × (α → M β))) (x : α) (env : Env) (fs : Files)
    (hf : CleanM (f x)) :
    (∀ u, u ≠ "creator" →
      precedes (Ev.hEnd s "creator") (Ev.hStart s u)
        (seriesRun s (("creator", f) :: us) x env fs).1) ∧
    (∀ r, (seriesRun s (("creator", f) :: us) x env fs).2 = .ok r →
      Ev.hEnd s "creator" ∈ (seriesRun s (("creator", f) :: us) x env fs).1) := by
  rcases hfx : f x env fs with ⟨t, r⟩
  have hft : NoHookEvs t := by
    have := hf env fs
    rw [hfx] at this
    exact this
  cases r with
  | error e =>
    rw [seriesRun_cons_error hfx]
    constructor
    · intro u hu
      apply precedes_of_not_mem
      intro hm
      rcases List.mem_cons.mp hm with h0 | h0
      · injection h0 with h0 h0'
        exact hu h0'
      · exact hStart_not_mem_noHook hft h0
    · intro r hr
      cases hr
  | ok p =>
    rcases p with ⟨y, fs'⟩
    rw [seriesRun_cons_ok hfx, withTrace_fst]
    have hmem : Ev.hEnd s "creator" ∈ Ev.hStart s "creator" :: t ++ [Ev.hEnd s "creator"] := by
      refine List.mem_cons_of_mem _ ?_
      exact List.mem_append_right t (List.mem_singleton.mpr rfl)
    constructor
    · intro u hu
      refine precedes_append_left hmem ?_
      intro hm
      rcases List.mem_cons.mp hm with h0 | h0
      · injection h0 with h0 h0'
        exact hu h0'
      · rcases List.mem_append.mp h0 with h1 | h1
        · exact hStart_not_mem_noHook hft h1
        · cases List.mem_singleton.mp h1
    · intro r hr
      exact List.mem_append_left _ hmem

/-- Waterfall version of `seriesRun_creator_spec`. -/
theorem waterfallRun_creator_spec {α : Type} (s : Stage) (f : α → M α)
    (us : List (String × (α → M α))) (x : α) (env : Env) (fs : Files)
    (hf : CleanM (f x)) :
    (∀ u, u ≠ "creator" →
      precedes (Ev.hEnd s "creator") (Ev.hStart s u)
        (waterfallRun s (("creator", f) :: us) x env fs).1) ∧
    (∀ r, (waterfallRun s (("creator", f) :: us) x env fs).2 = .ok r →
      Ev.hEnd s "creator" ∈ (waterfallRun s (("creator", f) :: us) x env fs).1) := by
  rcases hfx : f x env fs with ⟨t, r⟩
  have hft : NoHookEvs t := by
    have := hf env fs
    rw [hfx] at this
    exact this
  cases r with
  | error e =>
    rw [waterfallRun_cons_error hfx]
    constructor
    · intro u hu
      apply precedes_of_not_mem
      intro hm
      rcases List.mem_cons.mp hm with h0 | h0
      · injection h0 with h0 h0'
        exact hu h0'
      · exact hStart_not_mem_noHook hft h0
    · intro r hr
      cases hr
  | ok p =>
    rcases p with ⟨y, fs'⟩
    rw [waterfallRun_cons_ok hfx, withTrace_fst]
    have hmem : Ev.hEnd s "creator" ∈ Ev.hStart s "creator" :: t ++ [Ev.hEnd s "creator"] := by
      refine List.mem_cons_of_mem _ ?_
      exact List.mem_append_right t (List.mem_singleton.mpr rfl)
    constructor
    · intro u hu
      refine precedes_append_left hmem ?_
      intro hm
      rcases List.mem_cons.mp hm with h0 | h0
      · injection h0 with h0 h0'
        exact hu h0'
      · rcases List.mem_append.mp h0 with h1 | h1
        · exact hStart_not_mem_noHook hft h1
        · cases List.mem_singleton.mp h1
    · intro r hr
      exact List.mem_append_left _ hmem


/-- Complete case analysis of one `create()` run: stages run in order, each
on the previous stage's output and state, and the first rejection ends the
run with exactly the trace accumulated so far. -/
theorem create_run_cases (c : Creator) (env : Env) (fs : Files) :
    (∃ t1 e1, runPrep c env fs = (t1, .error e1) ∧ create c env fs = (t1, .error e1)) ∨
    (∃ t1 i f1, runPrep c env fs = (t1, .ok (i, f1)) ∧
      ((∃ t2 e2, runResolve c i env f1 = (t2, .error e2) ∧
          create c env fs = (t1 ++ t2, .error e2)) ∨
       (∃ t2 tp f2, runResolve c i env f1 = (t2, .ok (tp, f2)) ∧
         ((∃ t3 e3, runRender c i tp env f2 = (t3, .error e3) ∧
             create c env fs = (t1 ++ (t2 ++ t3), .error e3)) ∨
          (∃ t3 f3, runRender c i tp env f2 = (t3, .ok ((), f3)) ∧
            ((∃ t4 e4, runBeforeEmit c env f3 = (t4, .error e4) ∧
                create c env fs = (t1 ++ (t2 ++ (t3 ++ t4)), .error e4)) ∨
             (∃ t4 f4, runBeforeEmit c env f3 = (t4, .ok ((), f4)) ∧
               ((∃ t5 e5, runEmit c env f4 = (t5, .error e5) ∧
                   create c env fs = (t1 ++ (t2 ++ (t3 ++ (t4 ++ t5))), .error e5)) ∨
                (∃ t5 f5, runEmit c env f4 = (t5, .ok ((), f5)) ∧
                  ((∃ t6 e6, runInit c env f5 = (t6, .error e6) ∧
                      create c env fs =
                        (t1 ++ (t2 ++ (t3 ++ (t4 ++ (t5 ++ t6)))), .error e6)) ∨
                   (∃ t6 f6, runInit c env f5 = (t6, .ok ((), f6)) ∧
                      create c env fs =
                        (t1 ++ (t2 ++ (t3 ++ (t4 ++ (t5 ++ t6)))), .ok ((), f6))))))))))))) := by
  rcases h1 : runPrep c env fs with ⟨t1, r1⟩
  cases r1 with
  | error e1 =>
    refine Or.inl ⟨t1, e1, rfl, ?_⟩
    rw [create_eq]
    exact M.bind_error h1
  | ok p1 =>
    rcases p1 with ⟨i, f1⟩
    refine Or.inr ⟨t1, i, f1, rfl, ?_⟩
    have hc1 : create c env fs = withTrace t1 (afterPrep c i env f1) := by
      rw [create_eq]
      exact M.bind_ok h1
    rcases h2 : runResolve c i env f1 with ⟨t2, r2⟩
    cases r2 with
    | error e2 =>
      refine Or.inl ⟨t2, e2, rfl, ?_⟩
      rw [hc1]
      have ha : afterPrep c i env f1 = (t2, .error e2) := by
        unfold afterPrep
        exact M.bind_error h2
      rw [ha]
      rfl
    | ok p2 =>
      rcases p2 with ⟨tp, f2⟩
      refine Or.inr ⟨t2, tp, f2, rfl, ?_⟩
      have hc2 : create c env fs =
          withTrace t1 (withTrace t2
            ((M.bind (runRender c i tp) fun _ => createTail c) env f2)) := by
        rw [hc1]
        have ha : afterPrep c i env f1 = withTrace t2
            ((M.bind (runRender c i tp) fun _ => createTail c) env f2) := by
          unfold afterPrep
          exact M.bind_ok h2
        rw [ha]
      rcases h3 : runRender c i tp env f2 with ⟨t3, r3⟩
      cases r3 with
      | error e3 =>
        refine Or.inl ⟨t3, e3, rfl, ?_⟩
        rw [hc2, M.bind_error h3]
        rfl
      | ok p3 =>
        rcases p3 with ⟨⟨⟩, f3⟩
        refine Or.inr ⟨t3, f3, rfl, ?_⟩
        have hc3 : create c env fs =
            withTrace t1 (withTrace t2 (withTrace t3 (createTail c env f3))) := by
          rw [hc2, M.bind_ok h3]
        rcases h4 : runBeforeEmit c env f3 with ⟨t4, r4⟩
        cases r4 with
        | error e4 =>
          refine Or.inl ⟨t4, e4, rfl, ?_⟩
          rw [hc3]
          have ha : createTail c env f3 = (t4, .error e4) := by
            unfold createTail
            exact M.bind_error h4
          rw [ha]
          rfl
        | ok p4 =>
          rcases p4 with ⟨⟨⟩, f4⟩
          refine Or.inr ⟨t4, f4, rfl, ?_⟩
          have hc4 : create c env fs =
              withTrace t1 (withTrace t2 (withTrace t3 (withTrace t4
                ((M.bind (runEmit c) fun _ =>
                  M.bind (runInit c) fun _ => runAfterInit c) env f4)))) := by
            rw [hc3]
            have ha : createTail c env f3 = withTrace t4
                ((M.bind (runEmit c) fun _ =>
                  M.bind (runInit c) fun _ => runAfterInit c) env f4) := by
              unfold createTail
              exact M.bind_ok h4
            rw [ha]
          rcases h5 : runEmit c env f4 with ⟨t5, r5⟩
          cases r5 with
          | error e5 =>
            refine Or.inl ⟨t5, e5, rfl, ?_⟩
            rw [hc4, M.bind_error h5]
            rfl
          | ok p5 =>
            rcases p5 with ⟨⟨⟩, f5⟩
            refine Or.inr ⟨t5, f5, rfl, ?_⟩
            have hc5 : create c env fs =
                withTrace t1 (withTrace t2 (withTrace t3 (withTrace t4 (withTrace t5
                  ((M.bind (runInit c) fun _ => runAfterInit c) env f5))))) := by
              rw [hc4, M.bind_ok h5]
            rcases h6 : runInit c env f5 with ⟨t6, r6⟩
            cases r6 with
            | error e6 =>
              refine Or.inl ⟨t6, e6, rfl, ?_⟩
              rw [hc5, M.bind_error h6]
              rfl
            | ok p6 =>
              rcases p6 with ⟨⟨⟩, f6⟩
              refine Or.inr ⟨t6, f6, rfl, ?_⟩
              rw [hc5, M.bind_ok h6, runAfterInit_run]
              simp [withTrace]


/-- A constant list is sorted and bounded below by its value. -/
theorem sorted_rep_bound (k n : Nat) :
    (List.replicate k n).Sorted (· ≤ ·) ∧ ∀ b ∈ List.replicate k n, n ≤ b := by
  constructor
  · induction k with
    | zero => exact List.sorted_nil
    | succ k ih =>
      rw [List.replicate_succ, List.sorted_cons]
      exact ⟨fun b hb => le_of_eq (List.eq_of_mem_replicate hb).symm, ih⟩
  · intro b hb
    exact le_of_eq (List.eq_of_mem_replicate hb).symm

/-- Prepending a block of copies of `n` to a sorted list bounded below by
`n` keeps it sorted and bounded below by `n`. -/
theorem sorted_rep_append (k n : Nat) {l : List Nat} (hl : l.Sorted (· ≤ ·))
    (hb : ∀ b ∈ l, n ≤ b) :
    (List.replicate k n ++ l).Sorted (· ≤ ·) ∧
    ∀ b ∈ List.replicate k n ++ l, n ≤ b := by
  constructor
  · refine List.pairwise_append.mpr ⟨(sorted_rep_bound k n).1, hl, ?_⟩
    intro a ha b hbm
    rw [List.eq_of_mem_replicate ha]
    exact hb b hbm
  · intro b hbm
    rcases List.mem_append.mp hbm with h | h
    · rw [List.eq_of_mem_replicate h]
    · exact hb b h

/-- Hook indices of the `prepare` stage run. -/
theorem runPrep_idxs {c : Creator} (hc : c.CleanPlugins) (env : Env) (fs : Files) :
    (∃ k, idxsOf (runPrep c env fs).1 = List.replicate k 0) ∧
    (∀ r, (runPrep c env fs).2 = .ok r →
      idxsOf (runPrep c env fs).1 =
        List.replicate (2 * (prepareTaps c.plugins).length) 0) :=
  waterfallRun_idxs .prepare (prepareTaps c.plugins) (prepareTaps_clean hc)
    (initialInfos c) env fs

/-- Hook indices of the `resolveTemplate` stage run. -/
theorem runResolve_idxs {c : Creator} (hc : c.CleanPlugins) (i : Infos)
    (env : Env) (fs : Files) :
    (∃ k, idxsOf (runResolve c i env fs).1 = List.replicate k 1) ∧
    (∀ r, (runResolve c i env fs).2 = .ok r →
      idxsOf (runResolve c i env fs).1 =
        List.replicate (2 * (resolveTemplateTaps c).length) 1) :=
  waterfallRun_idxs .resolveTemplate (resolveTemplateTaps c)
    (resolveTemplateTaps_clean hc) i.templateName env fs

/-- Hook indices of the `render` stage run. -/
theorem runRender_idxs {c : Creator} (hc : c.CleanPlugins) (i : Infos) (tp : String)
    (env : Env) (fs : Files) :
    (∃ k, idxsOf (runRender c i tp env fs).1 = List.replicate k 2) ∧
    (∀ r, (runRender c i tp env fs).2 = .ok r →
      idxsOf (runRender c i tp env fs).1 =
        List.replicate (2 * (renderTaps c).length) 2) := by
  have h := seriesRun_idxs .render (renderTaps c) (renderTaps_clean hc)
    (⟨i.projectName, i.appId, tp⟩ : RenderInfos) env []
  rw [← runRender_run c i tp env fs] at h
  exact h

/-- Hook indices of the `beforeEmit` stage run. -/
theorem runBeforeEmit_idxs {c : Creator} (hc : c.CleanPlugins) (env : Env) (fs : Files) :
    (∃ k, idxsOf (runBeforeEmit c env fs).1 = List.replicate k 3) ∧
    (∀ r, (runBeforeEmit c env fs).2 = .ok r →
      idxsOf (runBeforeEmit c env fs).1 =
        List.replicate (2 * (beforeEmitTaps c.plugins).length) 3) :=
  seriesRun_idxs .beforeEmit (beforeEmitTaps c.plugins) (beforeEmitTaps_clean hc) () env fs

/-- Hook indices of the `emit` stage run. -/
theorem runEmit_idxs {c : Creator} (hc : c.CleanPlugins) (env : Env) (fs : Files) :
    (∃ k, idxsOf (runEmit c env fs).1 = List.replicate k 4) ∧
    (∀ r, (runEmit c env fs).2 = .ok r →
      idxsOf (runEmit c env fs).1 = List.replicate (2 * (emitTaps c).length) 4) :=
  seriesRun_idxs .emit (emitTaps c) (emitTaps_clean hc) c.context env fs

/-- Hook indices of the `init` stage run. -/
theorem runInit_idxs {c : Creator} (hc : c.CleanPlugins) (env : Env) (fs : Files) :
    (∃ k, idxsOf (runInit c env fs).1 = List.replicate k 5) ∧
    (∀ r, (runInit c env fs).2 = .ok r →
      idxsOf (runInit c env fs).1 = List.replicate (2 * (initTaps c).length) 5) :=
  seriesRun_idxs .init (initTaps c) (initTaps_clean hc) c.context env fs


/-- The mutating plugin registers only hook-event-free taps. -/
theorem cW7_clean : cW7.CleanPlugins := by
  intro p hp
  have hp' := List.mem_singleton.mp hp
  subst hp'
  refine ⟨?_, ?_, ?_, ?_, ?_, ?_⟩
  · intro f hf
    cases hf
  · intro f hf
    cases hf
  · intro f hf x
    have h := List.mem_singleton.mp hf
    subst h
    intro env fs
    exact noHookEvs_nil
  · intro f hf x
    have h := List.mem_singleton.mp hf
    subst h
    intro env fs
    exact noHookEvs_nil
  · intro f hf
    cases hf
  · intro f hf
    cases hf

/-- C1: the seven stages run strictly in the fixed pipeline order — the
stage indices of all handler start/settle events in a `create()` trace form
a sorted sequence, so no handler of a later stage begins until every
handler of every earlier stage has settled — and on a successful run the
trace carries exactly the full per-stage handler sequence in pipeline
order. -/
theorem c1_stages_fixed_order (c : Creator) (hc : c.CleanPlugins) (env : Env) (fs : Files) :
    (idxsOf (create c env fs).1).Sorted (· ≤ ·) ∧
    (∀ r, (create c env fs).2 = .ok r → idxsOf (create c env fs).1 = expectedIdxs c) := by
  rcases create_run_cases c env fs with ⟨t1, e1, h1, hcr⟩ | ⟨t1, i, f1, h1, hrest⟩
  · have hp := runPrep_idxs hc env fs
    rw [h1] at hp
    rcases hp.1 with ⟨k1, hk1⟩
    constructor
    · simp only [hcr]
      rw [hk1]
      exact (sorted_rep_bound k1 0).1
    · intro r hr
      simp only [hcr] at hr
      exact Except.noConfusion hr
  · have hp := runPrep_idxs hc env fs
    rw [h1] at hp
    have hk1 := hp.2 _ rfl
    rcases hrest with ⟨t2, e2, h2, hcr⟩ | ⟨t2, tp, f2, h2, hrest⟩
    · have h2i := runResolve_idxs hc i env f1
      rw [h2] at h2i
      rcases h2i.1 with ⟨k2, hk2⟩
      constructor
      · simp only [hcr]
        rw [idxsOf_append, hk1, hk2]
        exact (sorted_rep_append (2 * (prepareTaps c.plugins).length) 0 (sorted_rep_bound k2 1).1
          (fun b _ => Nat.zero_le b)).1
      · intro r hr
        simp only [hcr] at hr
        exact Except.noConfusion hr
    · have h2i := runResolve_idxs hc i env f1
      rw [h2] at h2i
      have hk2 := h2i.2 _ rfl
      rcases hrest with ⟨t3, e3, h3, hcr⟩ | ⟨t3, f3, h3, hrest⟩
      · have h3i := runRender_idxs hc i tp env f2
        rw [h3] at h3i
        rcases h3i.1 with ⟨k3, hk3⟩
        constructor
        · simp only [hcr]
          rw [idxsOf_append, idxsOf_append, hk1, hk2, hk3]
          have s2 := sorted_rep_bound k3 2
          have s1 := sorted_rep_append (2 * (resolveTemplateTaps c).length) 1 s2.1 (fun b hb => Nat.le_of_succ_le (s2.2 b hb))
          exact (sorted_rep_append (2 * (prepareTaps c.plugins).length) 0 s1.1 (fun b _ => Nat.zero_le b)).1
        · intro r hr
          simp only [hcr] at hr
          exact Except.noConfusion hr
      · have h3i := runRender_idxs hc i tp env f2
        rw [h3] at h3i
        have hk3 := h3i.2 _ rfl
        rcases hrest with ⟨t4, e4, h4, hcr⟩ | ⟨t4, f4, h4, hrest⟩
        · have h4i := runBeforeEmit_idxs hc env f3
          rw [h4] at h4i
          rcases h4i.1 with ⟨k4, hk4⟩
          constructor
          · simp only [hcr]
            rw [idxsOf_append, idxsOf_append, idxsOf_append, hk1, hk2, hk3, hk4]
            have s3 := sorted_rep_bound k4 3
            have s2 := sorted_rep_append (2 * (renderTaps c).length) 2 s3.1 (fun b hb => Nat.le_of_succ_le (s3.2 b hb))
            have s1 := sorted_rep_append (2 * (resolveTemplateTaps c).length) 1 s2.1 (fun b hb => Nat.le_of_succ_le (s2.2 b hb))
            exact (sorted_rep_append (2 * (prepareTaps c.plugins).length) 0 s1.1 (fun b _ => Nat.zero_le b)).1
          · intro r hr
            simp only [hcr] at hr
            exact Except.noConfusion hr
        · have h4i := runBeforeEmit_idxs hc env f3
          rw [h4] at h4i
          have hk4 := h4i.2 _ rfl
          rcases hrest with ⟨t5, e5, h5, hcr⟩ | ⟨t5, f5, h5, hrest⟩
          · have h5i := runEmit_idxs hc env f4
            rw [h5] at h5i
            rcases h5i.1 with ⟨k5, hk5⟩
            constructor
            · simp only [hcr]
              rw [idxsOf_append, idxsOf_append, idxsOf_append, idxsOf_append,
                hk1, hk2, hk3, hk4, hk5]
              have s4 := sorted_rep_bound k5 4
              have s3 := sorted_rep_append (2 * (beforeEmitTaps c.plugins).length) 3 s4.1 (fun b hb => Nat.le_of_succ_le (s4.2 b hb))
              have s2 := sorted_rep_append (2 * (renderTaps c).length) 2 s3.1 (fun b hb => Nat.le_of_succ_le (s3.2 b hb))
              have s1 := sorted_rep_append (2 * (resolveTemplateTaps c).length) 1 s2.1 (fun b hb => Nat.le_of_succ_le (s2.2 b hb))
              exact (sorted_rep_append (2 * (prepareTaps c.plugins).length) 0 s1.1 (fun b _ => Nat.zero_le b)).1
            · intro r hr
              simp only [hcr] at hr
              exact Except.noConfusion hr
          · have h5i := runEmit_idxs hc env f4
            rw [h5] at h5i
            have hk5 := h5i.2 _ rfl
            rcases hrest with ⟨t6, e6, h6, hcr⟩ | ⟨t6, f6, h6, hcr⟩
            · have h6i := runInit_idxs hc env f5
              rw [h6] at h6i
              rcases h6i.1 with ⟨k6, hk6⟩
              constructor
              · simp only [hcr]
                rw [idxsOf_append, idxsOf_append, idxsOf_append, idxsOf_append, idxsOf_append,
                  hk1, hk2, hk3, hk4, hk5, hk6]
                have s5 := sorted_rep_bound k6 5
                have s4 := sorted_rep_append (2 * (emitTaps c).length) 4 s5.1 (fun b hb => Nat.le_of_succ_le (s5.2 b hb))
                have s3 := sorted_rep_append (2 * (beforeEmitTaps c.plugins).length) 3 s4.1 (fun b hb => Nat.le_of_succ_le (s4.2 b hb))
                have s2 := sorted_rep_append (2 * (renderTaps c).length) 2 s3.1 (fun b hb => Nat.le_of_succ_le (s3.2 b hb))
                have s1 := sorted_rep_append (2 * (resolveTemplateTaps c).length) 1 s2.1 (fun b hb => Nat.le_of_succ_le (s2.2 b hb))
                exact (sorted_rep_append (2 * (prepareTaps c.plugins).length) 0 s1.1 (fun b _ => Nat.zero_le b)).1
              · intro r hr
                simp only [hcr] at hr
                exact Except.noConfusion hr
            · have h6i := runInit_idxs hc env f5
              rw [h6] at h6i
              have hk6 := h6i.2 _ rfl
              have hidx : idxsOf (create c env fs).1 =
                  List.replicate (2 * (prepareTaps c.plugins).length) 0 ++
                  (List.replicate (2 * (resolveTemplateTaps c).length) 1 ++
                  (List.replicate (2 * (renderTaps c).length) 2 ++
                  (List.replicate (2 * (beforeEmitTaps c.plugins).length) 3 ++
                  (List.replicate (2 * (emitTaps c).length) 4 ++
                   List.replicate (2 * (initTaps c).length) 5)))) := by
                simp only [hcr]
                rw [idxsOf_append, idxsOf_append, idxsOf_append, idxsOf_append, idxsOf_append,
                  hk1, hk2, hk3, hk4, hk5, hk6]
              constructor
              · rw [hidx]
                have s5 := sorted_rep_bound (2 * (initTaps c).length) 5
                have s4 := sorted_rep_append (2 * (emitTaps c).length) 4 s5.1 (fun b hb => Nat.le_of_succ_le (s5.2 b hb))
                have s3 := sorted_rep_append (2 * (beforeEmitTaps c.plugins).length) 3 s4.1 (fun b hb => Nat.le_of_succ_le (s4.2 b hb))
                have s2 := sorted_rep_append (2 * (renderTaps c).length) 2 s3.1 (fun b hb => Nat.le_of_succ_le (s3.2 b hb))
                have s1 := sorted_rep_append (2 * (resolveTemplateTaps c).length) 1 s2.1 (fun b hb => Nat.le_of_succ_le (s2.2 b hb))
                exact (sorted_rep_append (2 * (prepareTaps c.plugins).length) 0 s1.1 (fun b _ => Nat.zero_le b)).1
              · intro r hr
                rw [hidx]
                simp [expectedIdxs, afterInitTaps, List.append_assoc]

/-- Witness for C1 at a concrete creator with a tapping plugin. -/
theorem c1_witness :
    (idxsOf (create cW7 envW []).1).Sorted (· ≤ ·) :=
  (c1_stages_fixed_order cW7 cW7_clean envW []).1


/-- In the `resolveTemplate` stage the default `'creator'` tap settles before
any other tap starts, and when the stage resolves the default tap settled. -/
theorem runResolve_creator_spec (c : Creator) (i : Infos) (env : Env) (fs : Files) :
    (∀ u, u ≠ "creator" →
      precedes (Ev.hEnd .resolveTemplate "creator") (Ev.hStart .resolveTemplate u)
        (runResolve c i env fs).1) ∧
    (∀ r, (runResolve c i env fs).2 = .ok r →
      Ev.hEnd .resolveTemplate "creator" ∈ (runResolve c i env fs).1) :=
  waterfallRun_creator_spec .resolveTemplate defaultResolveTap (userResolveTaps c.plugins)
    i.templateName env fs (getTemplatePath_clean i.templateName)

/-- In the `render` stage the default `'creator'` tap settles before any
other tap starts, and when the stage resolves the default tap settled. -/
theorem runRender_creator_spec (c : Creator) (i : Infos) (tp : String)
    (env : Env) (fs : Files) :
    (∀ u, u ≠ "creator" →
      precedes (Ev.hEnd .render "creator") (Ev.hStart .render u)
        (runRender c i tp env fs).1) ∧
    (∀ r, (runRender c i tp env fs).2 = .ok r →
      Ev.hEnd .render "creator" ∈ (runRender c i tp env fs).1) := by
  have h := seriesRun_creator_spec .render defaultRenderTap (userRenderTaps c.plugins)
    (⟨i.projectName, i.appId, tp⟩ : RenderInfos) env []
    (defaultRenderTap_clean ⟨i.projectName, i.appId, tp⟩)
  have hr := runRender_run c i tp env fs
  rw [show renderTaps c = ("creator", defaultRenderTap) :: userRenderTaps c.plugins
    from rfl] at hr
  rw [← hr] at h
  exact h

/-- In the `emit` stage the default `'creator'` tap settles before any other
tap starts, and when the stage resolves the default tap settled. -/
theorem runEmit_creator_spec (c : Creator) (env : Env) (fs : Files) :
    (∀ u, u ≠ "creator" →
      precedes (Ev.hEnd .emit "creator") (Ev.hStart .emit u) (runEmit c env fs).1) ∧
    (∀ r, (runEmit c env fs).2 = .ok r →
      Ev.hEnd .emit "creator" ∈ (runEmit c env fs).1) :=
  seriesRun_creator_spec .emit defaultEmitTap (userEmitTaps c.plugins) c.context env fs
    (defaultEmitTap_clean c.context)

/-- In the `init` stage the default `'creator'` tap settles before any other
tap starts, and when the stage resolves the default tap settled. -/
theorem runInit_creator_spec (c : Creator) (env : Env) (fs : Files) :
    (∀ u, u ≠ "creator" →
      precedes (Ev.hEnd .init "creator") (Ev.hStart .init u) (runInit c env fs).1) ∧
    (∀ r, (runInit c env fs).2 = .ok r →
      Ev.hEnd .init "creator" ∈ (runInit c env fs).1) :=
  seriesRun_creator_spec .init (defaultInitTap c.context) (userInitTaps c.plugins)
    c.context env fs (defaultInitTap_clean c.context c.context)


/-- C8: in each of the four stages with a default in-pipeline handler
(`resolveTemplate`, `render`, `emit`, `init`) the `'creator'` default tap is
registered first — it heads the tap list — and in every `create()` run its
settle event precedes the start event of every other tap of that stage: the
built-in handler runs and completes before any user plugin handler starts. -/
theorem c8_builtin_handler_first (c : Creator) (hc : c.CleanPlugins) :
    ((resolveTemplateTaps c).map Prod.fst =
      "creator" :: (userResolveTaps c.plugins).map Prod.fst) ∧
    ((renderTaps c).map Prod.fst = "creator" :: (userRenderTaps c.plugins).map Prod.fst) ∧
    ((emitTaps c).map Prod.fst = "creator" :: (userEmitTaps c.plugins).map Prod.fst) ∧
    ((initTaps c).map Prod.fst = "creator" :: (userInitTaps c.plugins).map Prod.fst) ∧
    (∀ env fs, ∀ s ∈ ([.resolveTemplate, .render, .emit, .init] : List Stage),
      ∀ u, u ≠ "creator" →
        precedes (Ev.hEnd s "creator") (Ev.hStart s u) (create c env fs).1) := by
  refine ⟨rfl, rfl, rfl, rfl, ?_⟩
  intro env fs
  rcases create_run_cases c env fs with ⟨t1, e1, h1, hcr⟩ | ⟨t1, i, f1, h1, hrest⟩
  · intro s hs u hu
    have H1 : StageHooksOnly .prepare t1 := by
      have := runPrep_hooks hc env fs
      rw [h1] at this
      exact this
    simp only [hcr]
    fin_cases hs <;>
      exact precedes_of_not_mem (no_hStart_of_stageHooksOnly (by decide) H1 u)
  · have H1 : StageHooksOnly .prepare t1 := by
      have := runPrep_hooks hc env fs
      rw [h1] at this
      exact this
    rcases hrest with ⟨t2, e2, h2, hcr⟩ | ⟨t2, tp, f2, h2, hrest⟩
    · intro s hs u hu
      have H2 : StageHooksOnly .resolveTemplate t2 := by
        have := runResolve_hooks hc i env f1
        rw [h2] at this
        exact this
      have S2 := runResolve_creator_spec c i env f1
      rw [h2] at S2
      simp only [hcr]
      fin_cases hs
      · exact precedes_prepend (no_hStart_of_stageHooksOnly (by decide) H1 u) (S2.1 u hu)
      · exact precedes_of_not_mem
          (not_mem_append (no_hStart_of_stageHooksOnly (by decide) H1 u)
            (no_hStart_of_stageHooksOnly (by decide) H2 u))
      · exact precedes_of_not_mem
          (not_mem_append (no_hStart_of_stageHooksOnly (by decide) H1 u)
            (no_hStart_of_stageHooksOnly (by decide) H2 u))
      · exact precedes_of_not_mem
          (not_mem_append (no_hStart_of_stageHooksOnly (by decide) H1 u)
            (no_hStart_of_stageHooksOnly (by decide) H2 u))
    · have H2 : StageHooksOnly .resolveTemplate t2 := by
        have := runResolve_hooks hc i env f1
        rw [h2] at this
        exact this
      have S2 := runResolve_creator_spec c i env f1
      rw [h2] at S2
      rcases hrest with ⟨t3, e3, h3, hcr⟩ | ⟨t3, f3, h3, hrest⟩
      · intro s hs u hu
        have H3 : StageHooksOnly .render t3 := by
          have := runRender_hooks hc i tp env f2
          rw [h3] at this
          exact this
        have S3 := runRender_creator_spec c i tp env f2
        rw [h3] at S3
        simp only [hcr]
        fin_cases hs
        · exact precedes_prepend (no_hStart_of_stageHooksOnly (by decide) H1 u)
            (precedes_append_of_mem (S2.1 u hu) (S2.2 _ rfl))
        · exact precedes_prepend (no_hStart_of_stageHooksOnly (by decide) H1 u)
            (precedes_prepend (no_hStart_of_stageHooksOnly (by decide) H2 u) (S3.1 u hu))
        · exact precedes_of_not_mem
            (not_mem_append (no_hStart_of_stageHooksOnly (by decide) H1 u)
              (not_mem_append (no_hStart_of_stageHooksOnly (by decide) H2 u)
                (no_hStart_of_stageHooksOnly (by decide) H3 u)))
        · exact precedes_of_not_mem
            (not_mem_append (no_hStart_of_stageHooksOnly (by decide) H1 u)
              (not_mem_append (no_hStart_of_stageHooksOnly (by decide) H2 u)
                (no_hStart_of_stageHooksOnly (by decide) H3 u)))
      · have H3 : StageHooksOnly .render t3 := by
          have := runRender_hooks hc i tp env f2
          rw [h3] at this
          exact this
        have S3 := runRender_creator_spec c i tp env f2
        rw [h3] at S3
        rcases hrest with ⟨t4, e4, h4, hcr⟩ | ⟨t4, f4, h4, hrest⟩
        · intro s hs u hu
          have H4 : StageHooksOnly .beforeEmit t4 := by
            have := runBeforeEmit_hooks hc env f3
            rw [h4] at this
            exact this
          simp only [hcr]
          fin_cases hs
          · exact precedes_prepend (no_hStart_of_stageHooksOnly (by decide) H1 u)
              (precedes_append_of_mem (S2.1 u hu) (S2.2 _ rfl))
          · exact precedes_prepend (no_hStart_of_stageHooksOnly (by decide) H1 u)
              (precedes_prepend (no_hStart_of_stageHooksOnly (by decide) H2 u)
                (precedes_append_of_mem (S3.1 u hu) (S3.2 _ rfl)))
          · exact precedes_of_not_mem
              (not_mem_append (no_hStart_of_stageHooksOnly (by decide) H1 u)
                (not_mem_append (no_hStart_of_stageHooksOnly (by decide) H2 u)
                  (not_mem_append (no_hStart_of_stageHooksOnly (by decide) H3 u)
                    (no_hStart_of_stageHooksOnly (by decide) H4 u))))
          · exact precedes_of_not_mem
              (not_mem_append (no_hStart_of_stageHooksOnly (by decide) H1 u)
                (not_mem_append (no_hStart_of_stageHooksOnly (by decide) H2 u)
                  (not_mem_append (no_hStart_of_stageHooksOnly (by decide) H3 u)
                    (no_hStart_of_stageHooksOnly (by decide) H4 u))))
        · have H4 : StageHooksOnly .beforeEmit t4 := by
            have := runBeforeEmit_hooks hc env f3
            rw [h4] at this
            exact this
          rcases hrest with ⟨t5, e5, h5, hcr⟩ | ⟨t5, f5, h5, hrest⟩
          · intro s hs u hu
            have H5 : StageHooksOnly .emit t5 := by
              have := runEmit_hooks hc env f4
              rw [h5] at this
              exact this
            have S5 := runEmit_creator_spec c env f4
            rw [h5] at S5
            simp only [hcr]
            fin_cases hs
            · exact precedes_prepend (no_hStart_of_stageHooksOnly (by decide) H1 u)
                (precedes_append_of_mem (S2.1 u hu) (S2.2 _ rfl))
            · exact precedes_prepend (no_hStart_of_stageHooksOnly (by decide) H1 u)
                (precedes_prepend (no_hStart_of_stageHooksOnly (by decide) H2 u)
                  (precedes_append_of_mem (S3.1 u hu) (S3.2 _ rfl)))
            · exact precedes_prepend (no_hStart_of_stageHooksOnly (by decide) H1 u)
                (precedes_prepend (no_hStart_of_stageHooksOnly (by decide) H2 u)
                  (precedes_prepend (no_hStart_of_stageHooksOnly (by decide) H3 u)
                    (precedes_prepend (no_hStart_of_stageHooksOnly (by decide) H4 u)
                      (S5.1 u hu))))
            · exact precedes_of_not_mem
                (not_mem_append (no_hStart_of_stageHooksOnly (by decide) H1 u)
                  (not_mem_append (no_hStart_of_stageHooksOnly (by decide) H2 u)
                    (not_mem_append (no_hStart_of_stageHooksOnly (by decide) H3 u)
                      (not_mem_append (no_hStart_of_stageHooksOnly (by decide) H4 u)
                        (no_hStart_of_stageHooksOnly (by decide) H5 u)))))
          · have H5 : StageHooksOnly .emit t5 := by
              have := runEmit_hooks hc env f4
              rw [h5] at this
              exact this
            have S5 := runEmit_creator_spec c env f4
            rw [h5] at S5
            rcases hrest with ⟨t6, e6, h6, hcr⟩ | ⟨t6, f6, h6, hcr⟩
            · intro s hs u hu
              have S6 := runInit_creator_spec c env f5
              rw [h6] at S6
              simp only [hcr]
              fin_cases hs
              · exact precedes_prepend (no_hStart_of_stageHooksOnly (by decide) H1 u)
                  (precedes_append_of_mem (S2.1 u hu) (S2.2 _ rfl))
              · exact precedes_prepend (no_hStart_of_stageHooksOnly (by decide) H1 u)
                  (precedes_prepend (no_hStart_of_stageHooksOnly (by decide) H2 u)
                    (precedes_append_of_mem (S3.1 u hu) (S3.2 _ rfl)))
              · exact precedes_prepend (no_hStart_of_stageHooksOnly (by decide) H1 u)
                  (precedes_prepend (no_hStart_of_stageHooksOnly (by decide) H2 u)
                    (precedes_prepend (no_hStart_of_stageHooksOnly (by decide) H3 u)
                      (precedes_prepend (no_hStart_of_stageHooksOnly (by decide) H4 u)
                        (precedes_append_of_mem (S5.1 u hu) (S5.2 _ rfl)))))
              · exact precedes_prepend (no_hStart_of_stageHooksOnly (by decide) H1 u)
                  (precedes_prepend (no_hStart_of_stageHooksOnly (by decide) H2 u)
                    (precedes_prepend (no_hStart_of_stageHooksOnly (by decide) H3 u)
                      (precedes_prepend (no_hStart_of_stageHooksOnly (by decide) H4 u)
                        (precedes_prepend (no_hStart_of_stageHooksOnly (by decide) H5 u)
                          (S6.1 u hu)))))
            · intro s hs u hu
              have S6 := runInit_creator_spec c env f5
              rw [h6] at S6
              simp only [hcr]
              fin_cases hs
              · exact precedes_prepend (no_hStart_of_stageHooksOnly (by decide) H1 u)
                  (precedes_append_of_mem (S2.1 u hu) (S2.2 _ rfl))
              · exact precedes_prepend (no_hStart_of_stageHooksOnly (by decide) H1 u)
                  (precedes_prepend (no_hStart_of_stageHooksOnly (by decide) H2 u)
                    (precedes_append_of_mem (S3.1 u hu) (S3.2 _ rfl)))
              · exact precedes_prepend (no_hStart_of_stageHooksOnly (by decide) H1 u)
                  (precedes_prepend (no_hStart_of_stageHooksOnly (by decide) H2 u)
                    (precedes_prepend (no_hStart_of_stageHooksOnly (by decide) H3 u)
                      (precedes_prepend (no_hStart_of_stageHooksOnly (by decide) H4 u)
                        (precedes_append_of_mem (S5.1 u hu) (S5.2 _ rfl)))))
              · exact precedes_prepend (no_hStart_of_stageHooksOnly (by decide) H1 u)
                  (precedes_prepend (no_hStart_of_stageHooksOnly (by decide) H2 u)
                    (precedes_prepend (no_hStart_of_stageHooksOnly (by decide) H3 u)
                      (precedes_prepend (no_hStart_of_stageHooksOnly (by decide) H4 u)
                        (precedes_prepend (no_hStart_of_stageHooksOnly (by decide) H5 u)
                          (S6.1 u hu)))))

/-- The user `emit`-tap plugin registers only hook-event-free taps. -/
theorem cW8_clean : cW8.CleanPlugins := by
  intro p hp
  have hp' := List.mem_singleton.mp hp
  subst hp'
  refine ⟨?_, ?_, ?_, ?_, ?_, ?_⟩
  · intro f hf
    cases hf
  · intro f hf
    cases hf
  · intro f hf
    cases hf
  · intro f hf
    cases hf
  · intro f hf x
    have h := List.mem_singleton.mp hf
    subst h
    intro env fs
    exact noHookEvs_nil
  · intro f hf
    cases hf

/-- Witness for C8: with a user plugin tapping `emit`, the default emit
handler settles before the plugin's handler starts. -/
theorem c8_witness :
    precedes (Ev.hEnd .emit "creator") (Ev.hStart .emit "q") (create cW8 envW []).1 :=
  (c8_builtin_handler_first cW8 cW8_clean).2.2.2.2 envW [] .emit (by decide) "q" (by decide)

end MpflowCreator
